import Mathlib

/-!
Verification of the tercios trace load generator.

This file gives a shallow embedding of the parts of the repository that the
claims refer to, and proves or refutes each claim against that embedding:

* the chaos engine (`internal/chaos/engine.go`): policies, matching,
  probability gating, actions, and the copy-on-write `Apply` loop.  Go's
  mutable attribute maps are modelled by an explicit heap, so that the
  frame condition "the input maps are not mutated" is a real statement;
* the trace generator (`internal/tracegen/generator.go` and
  `trace_builder.go`): the span-tree construction, depth accounting, time
  windows, statuses and HTTP attributes.  The `crypto/rand` reader is
  modelled by a stream `Nat → Nat` of draws, and the `time.Now` call inside
  `dbAttributes` by a second stream; the unbounded emission loop is run on
  explicit fuel (every Go execution is a run with enough fuel);
* the metrics collector and the pipeline runner (`internal/metrics`,
  `internal/pipeline`): the per-worker export loop, `Stats.Record` and
  `Summarize`;
* the application configuration (`internal/config`): `Config.Validate`.
-/

namespace Tercios

/-! ## Attribute values and maps

`go.opentelemetry.io/otel/attribute.Value` restricted to the four types the
repository uses (`string`, `int64`, `float64`, `bool`).  Go `float64` values
are represented by rationals; only equality comparisons on them occur. -/

inductive AttrValue where
  | str (s : String)
  | int (i : Int)
  | double (q : ℚ)
  | bool (b : Bool)
  deriving DecidableEq, Repr, Inhabited

/-- A Go `map[string]attribute.Value` value (the content of one map). -/
abbrev AttrMap := List (String × AttrValue)

/-- Go map read `m[k]`. -/
def mapLookup (m : AttrMap) (k : String) : Option AttrValue :=
  match m with
  | [] => none
  | (k', v) :: rest => if k' = k then some v else mapLookup rest k

/-- Go map write `m[k] = v`. -/
def mapSet (m : AttrMap) (k : String) (v : AttrValue) : AttrMap :=
  match m with
  | [] => [(k, v)]
  | (k', v') :: rest => if k' = k then (k', v) :: rest else (k', v') :: mapSet rest k v

/-! ## Span model (`internal/model/span.go`)

Span identity (trace/span ids), links and events play no role in the chaos
claims and are omitted from the chaos-side span record.  The two attribute
maps are held by reference into an explicit heap, mirroring Go's reference
semantics for maps, so that mutation and aliasing are observable. -/

inductive SpanKind where
  | unspecified
  | internal
  | server
  | client
  | producer
  | consumer
  deriving DecidableEq, Repr, Inhabited

/-- Lowercase form of Go `SpanKind.String()`, as used by `matches`. -/
def kindString : SpanKind → String
  | .unspecified => "unspecified"
  | .internal => "internal"
  | .server => "server"
  | .client => "client"
  | .producer => "producer"
  | .consumer => "consumer"

inductive StatusCode where
  | unset
  | error
  | ok
  deriving DecidableEq, Repr, Inhabited

/-- Heap of attribute maps: Go map references are indices into `maps`. -/
structure Heap where
  maps : Nat → AttrMap
  next : Nat

/-- Allocate a fresh map reference holding `m`. -/
def Heap.alloc (h : Heap) (m : AttrMap) : Nat × Heap :=
  (h.next, ⟨fun id => if id = h.next then m else h.maps id, h.next + 1⟩)

/-- Overwrite the map stored at an existing reference. -/
def Heap.write (h : Heap) (id : Nat) (m : AttrMap) : Heap :=
  ⟨fun j => if j = id then m else h.maps j, h.next⟩

/-- `model.Span`, restricted to the fields the chaos engine reads or writes.
Times are nanoseconds (Go `time.Time` at nanosecond resolution). -/
structure SpanR where
  name : String
  kind : SpanKind
  startTime : Int
  endTime : Int
  attrsRef : Nat
  resRef : Nat
  statusCode : StatusCode
  statusDesc : String
  deriving DecidableEq, Repr, Inhabited

/-! ## Chaos engine: compiled policies (`internal/chaos/engine.go`) -/

structure CompiledMatch where
  serviceName : String
  spanName : String
  spanKinds : List String
  attributes : List (String × AttrValue)
  deriving DecidableEq, Repr, Inhabited

inductive CompiledAction where
  | setAttribute (scope : String) (name : String) (value : AttrValue)
  | setStatus (code : StatusCode) (message : String)
  | addLatency (delta : Int)
  deriving DecidableEq, Repr, Inhabited

structure CompiledPolicy where
  probability : ℚ
  matchSpec : CompiledMatch
  actions : List CompiledAction
  deriving Repr, Inhabited

/-- `matchesTypedValue`: same attribute type and equal payload. -/
def matchesTypedValue (got want : AttrValue) : Bool :=
  match got, want with
  | .str a, .str b => a = b
  | .int a, .int b => a = b
  | .double a, .double b => a = b
  | .bool a, .bool b => a = b
  | _, _ => false

/-- `hasServiceName`: `service.name` on span attributes or resource
attributes is a string equal to the wanted name. -/
def hasServiceName (h : Heap) (s : SpanR) (serviceName : String) : Bool :=
  (match mapLookup (h.maps s.attrsRef) "service.name" with
   | some (.str v) => v = serviceName
   | _ => false) ||
  (match mapLookup (h.maps s.resRef) "service.name" with
   | some (.str v) => v = serviceName
   | _ => false)

/-- One attribute equality check of `matches`: span attributes first, then
resource attributes. -/
def matchesAttribute (h : Heap) (s : SpanR) (k : String) (want : AttrValue) : Bool :=
  match mapLookup (h.maps s.attrsRef) k with
  | some got => matchesTypedValue got want
  | none =>
    match mapLookup (h.maps s.resRef) k with
    | some got => matchesTypedValue got want
    | none => false

/-- `matches`: conjunction of span-name, span-kind, service-name and
per-attribute checks. -/
def matchesPolicy (h : Heap) (s : SpanR) (m : CompiledMatch) : Bool :=
  (m.spanName = "" || s.name = m.spanName) &&
  (m.spanKinds.isEmpty || m.spanKinds.contains (kindString s.kind)) &&
  (m.serviceName = "" || hasServiceName h s m.serviceName) &&
  m.attributes.all (fun kv => matchesAttribute h s kv.1 kv.2)

/-! ## Probability gating (`shouldApplyPolicy`)

A stateful seeded decider is modelled as `Option (Nat → Bool)`: the outcome
of its n-th invocation; `none` is Go's nil decider.  The call counter lives
in the apply state. -/

def shouldApplyPolicy (probability : ℚ) (decider : Option (Nat → Bool)) (calls : Nat) :
    Bool × Nat :=
  if probability ≤ 0 then (false, calls)
  else if 1 ≤ probability then (true, calls)
  else
    match decider with
    | none => (false, calls)
    | some d => (d calls, calls + 1)

/-! ## Actions -/

/-- `cloneMap`: an independent copy with the same content (Go returns a
fresh empty map for an empty or nil input). -/
def cloneMap (m : AttrMap) : AttrMap :=
  if m.isEmpty then [] else m

/-- `applySetAttribute`: write only if the key already exists in the chosen
scope. -/
def applySetAttribute (h : Heap) (s : SpanR) (scope name : String) (value : AttrValue) : Heap :=
  if name = "" then h
  else if scope = "span" then
    match mapLookup (h.maps s.attrsRef) name with
    | none => h
    | some _ => h.write s.attrsRef (mapSet (h.maps s.attrsRef) name value)
  else if scope = "resource" then
    match mapLookup (h.maps s.resRef) name with
    | none => h
    | some _ => h.write s.resRef (mapSet (h.maps s.resRef) name value)
  else h

/-- `applyLatency`: `EndTime += delta`, clamping to `StartTime + 1ms` when
the result is not strictly after `StartTime`; a zero delta returns early. -/
def applyLatency (s : SpanR) (delta : Int) : SpanR :=
  if delta = 0 then s
  else
    let newEnd := s.endTime + delta
    let newEnd := if s.startTime < newEnd then newEnd else s.startTime + 1000000
    { s with endTime := newEnd }

/-- `applyAction` dispatch. -/
def applyAction (h : Heap) (s : SpanR) (a : CompiledAction) : SpanR × Heap :=
  match a with
  | .setAttribute scope name value => (s, applySetAttribute h s scope name value)
  | .setStatus code message => ({ s with statusCode := code, statusDesc := message }, h)
  | .addLatency delta => (applyLatency s delta, h)

/-- Actions of one policy, executed in order through the span pointer. -/
def applyActions (h : Heap) (s : SpanR) (acts : List CompiledAction) : SpanR × Heap :=
  match acts with
  | [] => (s, h)
  | a :: rest =>
    let r := applyAction h s a
    applyActions r.2 r.1 rest

/-! ## `Engine.Apply`

The loop state mirrors the local variables of `Apply`: the lazily
allocated output slice `out`, the per-span `writable` flags, the heap of
attribute maps, and the decider's call counter.  `appliedLog` is ghost
instrumentation recording, in order, each `(span index, policy index)` at
which a policy's actions were executed; it has no effect on the rest of
the state. -/

structure ApplyState where
  out : Option (List SpanR)
  writable : Option (List Bool)
  heap : Heap
  deciderCalls : Nat
  appliedLog : List (Nat × Nat)

/-- `ensureWritable`: on the first write to span `idx`, materialise the
output slice and flags and clone that span's two attribute maps into fresh
heap references. -/
def ensureWritable (spans : List SpanR) (idx : Nat) (st : ApplyState) : SpanR × ApplyState :=
  let out := st.out.getD spans
  let flags := st.writable.getD (List.replicate spans.length false)
  if flags.getD idx false then
    (out.getD idx default, st)
  else
    let s := out.getD idx default
    let a := st.heap.alloc (cloneMap (st.heap.maps s.attrsRef))
    let r := a.2.alloc (cloneMap (a.2.maps s.resRef))
    let s' := { s with attrsRef := a.1, resRef := r.1 }
    (s', { out := some (out.set idx s'),
           writable := some (flags.set idx true),
           heap := r.2,
           deciderCalls := st.deciderCalls,
           appliedLog := st.appliedLog })

/-- The state after one applied policy: decider counter advanced, span made
writable, actions executed, result written back to `out`, application
logged. -/
def appliedStep (spans : List SpanR) (i j : Nat) (p : CompiledPolicy)
    (d : Option (Nat → Bool)) (st : ApplyState) : SpanR × ApplyState :=
  let st1 := { st with deciderCalls := (shouldApplyPolicy p.probability d st.deciderCalls).2 }
  let tw := ensureWritable spans i st1
  let ah := applyActions tw.2.heap tw.1 p.actions
  (ah.1, { tw.2 with
            heap := ah.2,
            out := some ((tw.2.out.getD spans).set i ah.1),
            appliedLog := tw.2.appliedLog ++ [(i, j)] })

/-- The inner policy loop of `Apply` for span `i` (`j` is the index of the
head policy, for the ghost log).  In `first_match` mode the loop breaks
after the first applied policy; otherwise `current` is repointed at the
mutated span and iteration continues. -/
def applyPoliciesLoop (spans : List SpanR) (firstMatch : Bool) (d : Option (Nat → Bool))
    (i : Nat) : Nat → List CompiledPolicy → SpanR → ApplyState → ApplyState
  | _, [], _, st => st
  | j, p :: rest, current, st =>
    if matchesPolicy st.heap current p.matchSpec then
      if (shouldApplyPolicy p.probability d st.deciderCalls).1 then
        let step := appliedStep spans i j p d st
        if firstMatch then step.2
        else applyPoliciesLoop spans firstMatch d i (j + 1) rest step.1 step.2
      else
        applyPoliciesLoop spans firstMatch d i (j + 1) rest current
          { st with deciderCalls := (shouldApplyPolicy p.probability d st.deciderCalls).2 }
    else applyPoliciesLoop spans firstMatch d i (j + 1) rest current st

/-- `Engine.Apply`: iterate the policy loop over every span of the batch;
return the untouched input when nothing was written. -/
def engineApply (firstMatch : Bool) (policies : List CompiledPolicy)
    (d : Option (Nat → Bool)) (spans : List SpanR) (h : Heap) : List SpanR × Heap :=
  if spans.length = 0 ∨ policies.length = 0 then (spans, h)
  else
    let st0 : ApplyState := ⟨none, none, h, 0, []⟩
    let stF := (List.range spans.length).foldl
      (fun st i =>
        applyPoliciesLoop spans firstMatch d i 0 policies
          ((st.out.getD spans).getD i default) st)
      st0
    (stF.out.getD spans, stF.heap)

/-! ## Frame lemmas: `Apply` never writes through input map references -/

theorem getD_set_ne {α : Type} (l : List α) (i k : Nat) (x d : α) (h : i ≠ k) :
    (l.set i x).getD k d = l.getD k d := by
  simp [List.getD_eq_getElem?_getD, List.getElem?_set_ne h]

theorem getD_set_self {α : Type} (l : List α) (i : Nat) (x d : α)
    (h : i < l.length) : (l.set i x).getD i d = x := by
  simp [List.getD_eq_getElem?_getD, List.getElem?_set_self h]

theorem getD_replicate_false (n k : Nat) : (List.replicate n false).getD k false = false := by
  simp only [List.getD_eq_getElem?_getD, List.getElem?_replicate]
  split <;> rfl

theorem alloc_next (h : Heap) (m : AttrMap) : ((h.alloc m).2).next = h.next + 1 := rfl

theorem alloc_fst (h : Heap) (m : AttrMap) : (h.alloc m).1 = h.next := rfl

theorem alloc_maps_lt (h : Heap) (m : AttrMap) (id : Nat) (hid : id < h.next) :
    ((h.alloc m).2).maps id = h.maps id := by
  simp only [Heap.alloc]
  rw [if_neg]
  omega

theorem write_next (h : Heap) (id : Nat) (m : AttrMap) : (h.write id m).next = h.next := rfl

theorem write_maps_ne (h : Heap) (id : Nat) (m : AttrMap) (j : Nat) (hj : j ≠ id) :
    (h.write id m).maps j = h.maps j := by
  simp [Heap.write, hj]

theorem alloc_alloc_maps_lt (h : Heap) (m1 m2 : AttrMap) (id : Nat) (hid : id < h.next) :
    (((h.alloc m1).2.alloc m2).2).maps id = h.maps id := by
  have h2 : id < ((h.alloc m1).2).next := by rw [alloc_next]; omega
  rw [alloc_maps_lt _ _ id h2, alloc_maps_lt _ _ id hid]

theorem applySetAttribute_next (h : Heap) (s : SpanR) (scope name : String) (v : AttrValue) :
    (applySetAttribute h s scope name v).next = h.next := by
  unfold applySetAttribute
  repeat' split <;> try rfl

theorem applySetAttribute_frame (h : Heap) (s : SpanR) (scope name : String) (v : AttrValue)
    (j : Nat) (hja : j ≠ s.attrsRef) (hjr : j ≠ s.resRef) :
    (applySetAttribute h s scope name v).maps j = h.maps j := by
  unfold applySetAttribute
  split
  · rfl
  · split
    · split
      · rfl
      · exact write_maps_ne _ _ _ _ hja
    · split
      · split
        · rfl
        · exact write_maps_ne _ _ _ _ hjr
      · rfl

theorem applyLatency_refs (s : SpanR) (delta : Int) :
    (applyLatency s delta).attrsRef = s.attrsRef ∧ (applyLatency s delta).resRef = s.resRef := by
  unfold applyLatency
  split <;> simp

theorem applyAction_refs (h : Heap) (s : SpanR) (a : CompiledAction) :
    ((applyAction h s a).1).attrsRef = s.attrsRef ∧ ((applyAction h s a).1).resRef = s.resRef := by
  cases a with
  | setAttribute scope name value => exact ⟨rfl, rfl⟩
  | setStatus code message => exact ⟨rfl, rfl⟩
  | addLatency delta => exact applyLatency_refs s delta

theorem applyAction_next (h : Heap) (s : SpanR) (a : CompiledAction) :
    ((applyAction h s a).2).next = h.next := by
  cases a with
  | setAttribute scope name value => exact applySetAttribute_next h s scope name value
  | setStatus code message => rfl
  | addLatency delta => rfl

theorem applyAction_frame (h : Heap) (s : SpanR) (a : CompiledAction) (j : Nat)
    (hja : j ≠ s.attrsRef) (hjr : j ≠ s.resRef) :
    ((applyAction h s a).2).maps j = h.maps j := by
  cases a with
  | setAttribute scope name value => exact applySetAttribute_frame h s scope name value j hja hjr
  | setStatus code message => rfl
  | addLatency delta => rfl

theorem applyActions_refs (acts : List CompiledAction) : ∀ (h : Heap) (s : SpanR),
    ((applyActions h s acts).1).attrsRef = s.attrsRef ∧
    ((applyActions h s acts).1).resRef = s.resRef := by
  induction acts with
  | nil => exact fun h s => ⟨rfl, rfl⟩
  | cons a rest ih =>
    intro h s
    have hr := applyAction_refs h s a
    have := ih (applyAction h s a).2 (applyAction h s a).1
    simpa [applyActions, hr.1, hr.2] using this

theorem applyActions_next (acts : List CompiledAction) : ∀ (h : Heap) (s : SpanR),
    ((applyActions h s acts).2).next = h.next := by
  induction acts with
  | nil => exact fun h s => rfl
  | cons a rest ih =>
    intro h s
    have := ih (applyAction h s a).2 (applyAction h s a).1
    simpa [applyActions, applyAction_next h s a] using this

theorem applyActions_frame (acts : List CompiledAction) : ∀ (h : Heap) (s : SpanR) (j : Nat),
    j ≠ s.attrsRef → j ≠ s.resRef →
    ((applyActions h s acts).2).maps j = h.maps j := by
  induction acts with
  | nil => exact fun h s j _ _ => rfl
  | cons a rest ih =>
    intro h s j hja hjr
    have hr := applyAction_refs h s a
    have h1 := applyAction_frame h s a j hja hjr
    have h2 := ih (applyAction h s a).2 (applyAction h s a).1 j (hr.1 ▸ hja) (hr.2 ▸ hjr)
    simp only [applyActions]
    rw [h2, h1]

/-- The effective output slice (the input batch until a write occurs). -/
def stOut (spans : List SpanR) (st : ApplyState) : List SpanR :=
  st.out.getD spans

/-- The effective writable flags (all false until a write occurs). -/
def stWritable (spans : List SpanR) (st : ApplyState) : List Bool :=
  st.writable.getD (List.replicate spans.length false)

/-- Invariant relating the loop state of `Apply` to the input heap `h0`:
the fresh-allocation frontier only grows, every pre-existing map is
untouched, the output and flag slices keep the batch's length, and a
writable span's map references point at post-`h0` (freshly cloned) maps. -/
def StInv (h0 : Heap) (spans : List SpanR) (st : ApplyState) : Prop :=
  h0.next ≤ st.heap.next ∧
  (∀ id, id < h0.next → st.heap.maps id = h0.maps id) ∧
  (stOut spans st).length = spans.length ∧
  (stWritable spans st).length = spans.length ∧
  (∀ k, (stWritable spans st).getD k false = true →
    h0.next ≤ ((stOut spans st).getD k default).attrsRef ∧
    h0.next ≤ ((stOut spans st).getD k default).resRef)

theorem ensureWritable_inv (h0 : Heap) (spans : List SpanR) (idx : Nat) (st : ApplyState)
    (hst : StInv h0 spans st) (hidx : idx < spans.length) :
    StInv h0 spans (ensureWritable spans idx st).2 ∧
    h0.next ≤ ((ensureWritable spans idx st).1).attrsRef ∧
    h0.next ≤ ((ensureWritable spans idx st).1).resRef := by
  obtain ⟨h1, h2, h3, h4, h5⟩ := hst
  unfold ensureWritable
  by_cases hflag : (stWritable spans st).getD idx false = true
  · simp only [stWritable] at hflag
    simp only [hflag, if_true]
    exact ⟨⟨h1, h2, h3, h4, h5⟩, (h5 idx hflag).1, (h5 idx hflag).2⟩
  · simp only [stWritable] at hflag
    simp only [hflag, if_false, Bool.false_eq_true]
    refine ⟨⟨?_, ?_, ?_, ?_, ?_⟩, ?_, ?_⟩
    · simp only [Heap.alloc]
      omega
    · intro id hid
      have e1 : id < st.heap.next := lt_of_lt_of_le hid h1
      exact (alloc_alloc_maps_lt st.heap _ _ id e1).trans (h2 id hid)
    · simpa [stOut] using h3
    · simpa [stWritable] using h4
    · intro k hk
      by_cases hki : k = idx
      · subst hki
        have hlen : k < (st.out.getD spans).length := h3 ▸ hidx
        simp only [stOut, Option.getD_some] at hk ⊢
        rw [getD_set_self _ _ _ _ hlen]
        constructor
        · show h0.next ≤ st.heap.next
          exact h1
        · show h0.next ≤ st.heap.next + 1
          omega
      · have hne : ¬ idx = k := fun he => hki he.symm
        simp only [stOut, stWritable, Option.getD_some] at hk ⊢
        rw [getD_set_ne _ _ _ _ _ hne] at hk
        rw [getD_set_ne _ _ _ _ _ hne]
        exact h5 k hk
    · show h0.next ≤ st.heap.next
      exact h1
    · show h0.next ≤ st.heap.next + 1
      omega

theorem postActions_inv (h0 : Heap) (spans : List SpanR) (i : Nat) (hidx : i < spans.length)
    (stw : ApplyState) (target : SpanR) (hstw : StInv h0 spans stw)
    (hta : h0.next ≤ target.attrsRef) (htr : h0.next ≤ target.resRef)
    (acts : List CompiledAction) (lg : List (Nat × Nat)) :
    StInv h0 spans { stw with
      heap := (applyActions stw.heap target acts).2,
      out := some ((stw.out.getD spans).set i (applyActions stw.heap target acts).1),
      appliedLog := lg } := by
  obtain ⟨e1, e2, e3, e4, e5⟩ := hstw
  have hrefs := applyActions_refs acts stw.heap target
  have hnext := applyActions_next acts stw.heap target
  refine ⟨?_, ?_, ?_, ?_, ?_⟩
  · show h0.next ≤ (applyActions stw.heap target acts).2.next
    omega
  · intro id hid
    have hfa : id ≠ target.attrsRef := by omega
    have hfr : id ≠ target.resRef := by omega
    show (applyActions stw.heap target acts).2.maps id = h0.maps id
    rw [applyActions_frame acts stw.heap target id hfa hfr]
    exact e2 id hid
  · show ((stw.out.getD spans).set i (applyActions stw.heap target acts).1).length = spans.length
    rw [List.length_set]
    simpa [stOut] using e3
  · simpa [stWritable] using e4
  · intro k hk
    have hk' : (stWritable spans stw).getD k false = true := by
      simpa [stWritable] using hk
    have hout : ∀ q : SpanR → Nat,
        q ((((stw.out.getD spans).set i (applyActions stw.heap target acts).1)).getD k default) =
        q ((stOut spans { stw with
          heap := (applyActions stw.heap target acts).2,
          out := some ((stw.out.getD spans).set i (applyActions stw.heap target acts).1),
          appliedLog := lg }).getD k default) := fun q => rfl
    by_cases hki : i = k
    · subst hki
      have hlen : i < (stw.out.getD spans).length := by
        simpa [stOut] using (e3 ▸ hidx)
      constructor
      · show h0.next ≤
          ((((stw.out.getD spans).set i (applyActions stw.heap target acts).1)).getD i
            default).attrsRef
        rw [getD_set_self _ _ _ _ hlen, hrefs.1]
        exact hta
      · show h0.next ≤
          ((((stw.out.getD spans).set i (applyActions stw.heap target acts).1)).getD i
            default).resRef
        rw [getD_set_self _ _ _ _ hlen, hrefs.2]
        exact htr
    · have hs := e5 k hk'
      constructor
      · show h0.next ≤
          ((((stw.out.getD spans).set i (applyActions stw.heap target acts).1)).getD k
            default).attrsRef
        rw [getD_set_ne _ _ _ _ _ hki]
        simpa [stOut] using hs.1
      · show h0.next ≤
          ((((stw.out.getD spans).set i (applyActions stw.heap target acts).1)).getD k
            default).resRef
        rw [getD_set_ne _ _ _ _ _ hki]
        simpa [stOut] using hs.2

theorem appliedStep_inv (h0 : Heap) (spans : List SpanR) (i j : Nat) (p : CompiledPolicy)
    (d : Option (Nat → Bool)) (st : ApplyState) (hst : StInv h0 spans st)
    (hidx : i < spans.length) :
    StInv h0 spans (appliedStep spans i j p d st).2 := by
  have hst1 : StInv h0 spans
      { st with deciderCalls := (shouldApplyPolicy p.probability d st.deciderCalls).2 } := hst
  have hew := ensureWritable_inv h0 spans i _ hst1 hidx
  exact postActions_inv h0 spans i hidx _ _ hew.1 hew.2.1 hew.2.2 p.actions _

theorem applyPoliciesLoop_inv (h0 : Heap) (spans : List SpanR) (fm : Bool)
    (d : Option (Nat → Bool)) (i : Nat) (hidx : i < spans.length) :
    ∀ (ps : List CompiledPolicy) (j : Nat) (current : SpanR) (st : ApplyState),
    StInv h0 spans st → StInv h0 spans (applyPoliciesLoop spans fm d i j ps current st) := by
  intro ps
  induction ps with
  | nil => intro j current st hst; exact hst
  | cons p rest ih =>
    intro j current st hst
    simp only [applyPoliciesLoop]
    by_cases hm : matchesPolicy st.heap current p.matchSpec
    · simp only [hm, if_true]
      by_cases hg : (shouldApplyPolicy p.probability d st.deciderCalls).1 = true
      · simp only [hg, if_true]
        have hstep := appliedStep_inv h0 spans i j p d st hst hidx
        cases fm with
        | true => simpa using hstep
        | false => simpa using ih (j + 1) _ _ hstep
      · simp only [Bool.not_eq_true] at hg
        simp only [hg, Bool.false_eq_true, if_false]
        exact ih (j + 1) current _ hst
    · simp only [hm, Bool.false_eq_true, if_false]
      exact ih (j + 1) current st hst

theorem applyFold_inv (h0 : Heap) (spans : List SpanR) (fm : Bool)
    (d : Option (Nat → Bool)) (policies : List CompiledPolicy) :
    ∀ (l : List Nat) (st : ApplyState), (∀ i ∈ l, i < spans.length) → StInv h0 spans st →
    StInv h0 spans (l.foldl
      (fun st i => applyPoliciesLoop spans fm d i 0 policies
        ((st.out.getD spans).getD i default) st) st) := by
  intro l
  induction l with
  | nil => intro st _ hst; exact hst
  | cons a l ih =>
    intro st hmem hst
    simp only [List.foldl_cons]
    refine ih _ (fun i hi => hmem i (List.mem_cons_of_mem a hi)) ?_
    exact applyPoliciesLoop_inv h0 spans fm d a (hmem a (List.mem_cons_self a l)) policies 0 _ st hst

/-- Claim C1 (chaos copy-on-write): for every batch, policy set, mode and
decider, `Engine.Apply` leaves every attribute map that existed before the
call — in particular every input span's `Attributes` and
`ResourceAttributes` map — unchanged; all mutations go to freshly cloned
maps referenced only from the returned batch. -/
theorem C1_chaos_copy_on_write (fm : Bool) (policies : List CompiledPolicy)
    (d : Option (Nat → Bool)) (spans : List SpanR) (h : Heap) (id : Nat)
    (hid : id < h.next) :
    ((engineApply fm policies d spans h).2).maps id = h.maps id := by
  unfold engineApply
  by_cases hz : spans.length = 0 ∨ policies.length = 0
  · simp only [hz, if_true]
  · simp only [hz, if_false]
    have hinit : StInv h spans ⟨none, none, h, 0, []⟩ := by
      refine ⟨le_refl _, fun _ _ => rfl, rfl, ?_, ?_⟩
      · simp [stWritable]
      · intro k hk
        rw [show stWritable spans ⟨none, none, h, 0, []⟩ = List.replicate spans.length false
          from rfl] at hk
        rw [getD_replicate_false] at hk
        exact absurd hk (by simp)
    have := applyFold_inv h spans fm d policies (List.range spans.length)
      ⟨none, none, h, 0, []⟩ (fun i hi => List.mem_range.mp hi) hinit
    exact this.2.1 id hid

/-- A compiled policy used as concrete input for the chaos witnesses:
matches spans of service `post-service` with probability 1 and sets the
status and the HTTP status attribute. -/
def polW1 : CompiledPolicy :=
  { probability := 1,
    matchSpec := { serviceName := "post-service", spanName := "", spanKinds := [],
                   attributes := [] },
    actions := [.setStatus .error "simulated",
                .setAttribute "span" "http.response.status_code" (.int 500)] }

def heapW1 : Heap :=
  { maps := fun id =>
      if id = 0 then [("http.response.status_code", .int 200)]
      else if id = 1 then [("service.name", .str "post-service")]
      else [],
    next := 2 }

def spanW1 : SpanR :=
  { name := "POST /posts", kind := .server, startTime := 0, endTime := 10000000,
    attrsRef := 0, resRef := 1, statusCode := .ok, statusDesc := "" }

theorem C1_chaos_copy_on_write_witness :
    0 < heapW1.next ∧
    ((engineApply false [polW1] (some fun _ => true) [spanW1] heapW1).2).maps 0 = heapW1.maps 0 :=
  ⟨by decide,
   C1_chaos_copy_on_write false [polW1] (some fun _ => true) [spanW1] heapW1 0 (by decide)⟩

/-! ## Policy mode discipline (C5) -/

theorem ensureWritable_log (spans : List SpanR) (idx : Nat) (st : ApplyState) :
    (ensureWritable spans idx st).2.appliedLog = st.appliedLog := by
  unfold ensureWritable
  by_cases hf : (st.writable.getD (List.replicate spans.length false)).getD idx false = true
  · simp only [hf, if_true]
  · simp only [hf, Bool.false_eq_true, if_false]

theorem appliedStep_log (spans : List SpanR) (i j : Nat) (p : CompiledPolicy)
    (d : Option (Nat → Bool)) (st : ApplyState) :
    (appliedStep spans i j p d st).2.appliedLog = st.appliedLog ++ [(i, j)] := by
  show (ensureWritable spans i
    { st with deciderCalls := (shouldApplyPolicy p.probability d st.deciderCalls).2
    }).2.appliedLog ++ [(i, j)] = st.appliedLog ++ [(i, j)]
  rw [ensureWritable_log]

theorem applyPoliciesLoop_firstMatch_log (spans : List SpanR) (d : Option (Nat → Bool))
    (i : Nat) : ∀ (ps : List CompiledPolicy) (j : Nat) (c : SpanR) (st : ApplyState),
    ((applyPoliciesLoop spans true d i j ps c st).appliedLog).length ≤
      st.appliedLog.length + 1 := by
  intro ps
  induction ps with
  | nil =>
    intro j c st
    simp [applyPoliciesLoop]
  | cons p rest ih =>
    intro j c st
    simp only [applyPoliciesLoop]
    by_cases hm : matchesPolicy st.heap c p.matchSpec
    · simp only [hm, if_true]
      by_cases hg : (shouldApplyPolicy p.probability d st.deciderCalls).1 = true
      · simp only [hg, if_true]
        rw [appliedStep_log]
        simp
      · simp only [Bool.not_eq_true] at hg
        simp only [hg, Bool.false_eq_true, if_false]
        exact ih (j + 1) c _
    · simp only [hm, Bool.false_eq_true, if_false]
      exact ih (j + 1) c st

/-- Claim C5 (policy mode discipline): when the head policy `p` matches the
current span and passes its probability gate, then (i) in `first_match`
mode the loop's result is independent of every policy after `p` — the
engine stops right after applying `p`; (ii) in `first_match` mode at most
one policy application is ever logged for a span; (iii) in `all` mode the
loop applies `p` and then continues through the remaining policies from
the post-application state, so every later matching, gate-passing policy
is applied too, in file order; (iv) the application of `p` is logged. -/
theorem C5_policy_mode_discipline (spans : List SpanR) (d : Option (Nat → Bool)) (i j : Nat)
    (p : CompiledPolicy) (rest : List CompiledPolicy) (c : SpanR) (st : ApplyState)
    (hm : matchesPolicy st.heap c p.matchSpec = true)
    (hg : (shouldApplyPolicy p.probability d st.deciderCalls).1 = true) :
    (∀ rest', applyPoliciesLoop spans true d i j (p :: rest) c st
        = applyPoliciesLoop spans true d i j (p :: rest') c st) ∧
    (∀ (ps : List CompiledPolicy) (j' : Nat) (c' : SpanR) (st' : ApplyState),
      ((applyPoliciesLoop spans true d i j' ps c' st').appliedLog).length ≤
        st'.appliedLog.length + 1) ∧
    (applyPoliciesLoop spans false d i j (p :: rest) c st
        = applyPoliciesLoop spans false d i (j + 1) rest
            (appliedStep spans i j p d st).1 (appliedStep spans i j p d st).2) ∧
    (appliedStep spans i j p d st).2.appliedLog = st.appliedLog ++ [(i, j)] := by
  refine ⟨fun rest' => ?_, ?_, ?_, appliedStep_log spans i j p d st⟩
  · simp only [applyPoliciesLoop, hm, hg, if_true]
  · intro ps j' c' st'
    exact applyPoliciesLoop_firstMatch_log spans d i ps j' c' st'
  · simp only [applyPoliciesLoop, hm, hg, if_true, Bool.false_eq_true, if_false]

def spanW5 : SpanR :=
  { name := "GET /posts", kind := .client, startTime := 0, endTime := 5000000,
    attrsRef := 0, resRef := 1, statusCode := .unset, statusDesc := "" }

def polW5 : CompiledPolicy :=
  { probability := 1,
    matchSpec := { serviceName := "", spanName := "GET /posts", spanKinds := [],
                   attributes := [] },
    actions := [.setStatus .error "boom"] }

def stW5 : ApplyState := ⟨none, none, heapW1, 0, []⟩

theorem C5_policy_mode_discipline_witness :
    (∀ rest', applyPoliciesLoop [spanW5] true none 0 0 [polW5] spanW5 stW5
        = applyPoliciesLoop [spanW5] true none 0 0 (polW5 :: rest') spanW5 stW5) ∧
    (appliedStep [spanW5] 0 0 polW5 none stW5).2.appliedLog = stW5.appliedLog ++ [(0, 0)] := by
  have h := C5_policy_mode_discipline [spanW5] none 0 0 polW5 [] spanW5 stW5
    (by decide) (by decide)
  exact ⟨fun rest' => h.1 rest', h.2.2.2⟩

/-! ## `add_latency` (C6) -/

def spanW6 : SpanR :=
  { name := "s", kind := .internal, startTime := 0, endTime := 0,
    attrsRef := 0, resRef := 0, statusCode := .ok, statusDesc := "" }

/-- Claim C6 counterexample: on a span whose end time does not lie strictly
after its start time, `applyLatency` with delta 0 leaves `EndTime`
unchanged: the sum `EndTime + 0` is not strictly after `StartTime`, yet no
clamp to `StartTime + 1ms` happens and the resulting duration is not
strictly positive, contradicting the claim's "for every signed delta". -/
theorem C6_counterexample :
    ¬ spanW6.startTime < spanW6.endTime + 0 ∧
    (applyLatency spanW6 0).endTime ≠ spanW6.startTime + 1000000 ∧
    ¬ spanW6.startTime < (applyLatency spanW6 0).endTime := by
  decide

/-- Claim C6 (amended): for every span and every nonzero delta,
`add_latency` sets `EndTime := EndTime + delta` and clamps to
`StartTime + 1ms` whenever the sum is not strictly after `StartTime`, so
the resulting duration is strictly positive; a zero delta is a no-op
(source comment: "A zero delta is a valid no-op").  Start time and status
are never touched. -/
theorem C6_add_latency_clamp (s : SpanR) (delta : Int) :
    (delta ≠ 0 →
      (applyLatency s delta).endTime =
        (if s.startTime < s.endTime + delta then s.endTime + delta
         else s.startTime + 1000000) ∧
      s.startTime < (applyLatency s delta).endTime) ∧
    (delta = 0 → applyLatency s delta = s) ∧
    (applyLatency s delta).startTime = s.startTime ∧
    (applyLatency s delta).statusCode = s.statusCode := by
  refine ⟨fun hne => ⟨?_, ?_⟩, fun hz => ?_, ?_, ?_⟩
  · unfold applyLatency
    rw [if_neg hne]
  · unfold applyLatency
    rw [if_neg hne]
    show s.startTime <
      (if s.startTime < s.endTime + delta then s.endTime + delta else s.startTime + 1000000)
    split
    · assumption
    · omega
  · unfold applyLatency
    rw [if_pos hz]
  · unfold applyLatency
    split <;> rfl
  · unfold applyLatency
    split <;> rfl

def spanW6b : SpanR :=
  { name := "t", kind := .server, startTime := 0, endTime := 10000000,
    attrsRef := 0, resRef := 0, statusCode := .ok, statusDesc := "" }

theorem C6_add_latency_clamp_witness :
    ((-1000000000000 : Int) = 0 → applyLatency spanW6b (-1000000000000) = spanW6b) ∧
    spanW6b.startTime < (applyLatency spanW6b (-1000000000000)).endTime :=
  ⟨(C6_add_latency_clamp spanW6b (-1000000000000)).2.1,
   ((C6_add_latency_clamp spanW6b (-1000000000000)).1 (by decide)).2⟩

/-! ## Nil-decider gating (C10) -/

/-- Claim C10 (nil-decider gating): `shouldApplyPolicy` with a nil decider
returns true for probability ≥ 1 and false for 0 < probability < 1, and
probability ≤ 0 yields false for every decider; lifted to the `Apply`
loop, a matching policy with probability ≥ 1 is applied (logged) under a
nil decider, while a matching policy with 0 < probability < 1 is not. -/
theorem C10_nil_decider_gating (p : ℚ) (n : Nat) :
    (1 ≤ p → (shouldApplyPolicy p none n).1 = true) ∧
    (0 < p → p < 1 → (shouldApplyPolicy p none n).1 = false) ∧
    (p ≤ 0 → ∀ d : Option (Nat → Bool), (shouldApplyPolicy p d n).1 = false) ∧
    (∀ (spans : List SpanR) (fm : Bool) (i j : Nat) (pol : CompiledPolicy) (c : SpanR)
      (st : ApplyState), matchesPolicy st.heap c pol.matchSpec = true →
      1 ≤ pol.probability →
      (applyPoliciesLoop spans fm none i j [pol] c st).appliedLog =
        st.appliedLog ++ [(i, j)]) ∧
    (∀ (spans : List SpanR) (fm : Bool) (i j : Nat) (pol : CompiledPolicy) (c : SpanR)
      (st : ApplyState), matchesPolicy st.heap c pol.matchSpec = true →
      0 < pol.probability → pol.probability < 1 →
      (applyPoliciesLoop spans fm none i j [pol] c st).appliedLog = st.appliedLog) := by
  refine ⟨fun h1 => ?_, fun hp hl => ?_, fun hz d => ?_, ?_, ?_⟩
  · unfold shouldApplyPolicy
    rw [if_neg (by linarith), if_pos h1]
  · unfold shouldApplyPolicy
    rw [if_neg (by linarith), if_neg (by linarith)]
  · unfold shouldApplyPolicy
    rw [if_pos hz]
  · intro spans fm i j pol c st hm h1
    have hg : (shouldApplyPolicy pol.probability (none : Option (Nat → Bool))
        st.deciderCalls).1 = true := by
      unfold shouldApplyPolicy
      rw [if_neg (by linarith), if_pos h1]
    simp only [applyPoliciesLoop, hm, hg, if_true]
    cases fm with
    | true => exact appliedStep_log spans i j pol none st
    | false =>
      simp only [Bool.false_eq_true, if_false, applyPoliciesLoop]
      exact appliedStep_log spans i j pol none st
  · intro spans fm i j pol c st hm hp hl
    have hg : (shouldApplyPolicy pol.probability (none : Option (Nat → Bool))
        st.deciderCalls).1 = false := by
      unfold shouldApplyPolicy
      rw [if_neg (by linarith), if_neg (by linarith)]
    simp only [applyPoliciesLoop, hm, hg, Bool.false_eq_true, if_true, if_false]

theorem C10_nil_decider_gating_witness :
    (shouldApplyPolicy 1 none 0).1 = true ∧
    (shouldApplyPolicy (1 / 2) none 0).1 = false ∧
    (shouldApplyPolicy 0 (some fun _ => true) 0).1 = false :=
  ⟨(C10_nil_decider_gating 1 0).1 (by norm_num),
   (C10_nil_decider_gating (1 / 2) 0).2.1 (by norm_num) (by norm_num),
   (C10_nil_decider_gating 0 0).2.2.1 (by norm_num) (some fun _ => true)⟩

/-! ## Trace generator (`internal/tracegen`)

The `crypto/rand` reader is a stream `r : Nat → Nat` read at a running
position; `rand.Int(max)` is `r pos % max`, which ranges over exactly the
values the Go call can return.  The reader never fails in the model (the
Go error paths only trigger on reader I/O failure).  `dbAttributes` reads
`time.Now()`, modelled by a second stream.  The generation loop, unbounded
in Go, runs on explicit fuel: every Go execution is a run of the model
with sufficiently large fuel, and the proved invariants hold at every
fuel. -/

structure GenCfg where
  serviceName : String
  spanName : String
  services : Nat
  maxDepth : Nat
  maxSpans : Nat
  errorRate : ℚ
  deriving Repr

/-- One `SpanBuilder` node.  `depthField` is the builder's `depth` field;
`structDepth` is ghost instrumentation: the length of the creation-parent
chain, i.e. the depth of the span in the emitted trace structure.
`parentIdx` is the creation parent (the span's structural parent in the
batch); `parents`/`children` mirror the builder's adjacency lists (fan-in
adds extra parents); `links` are the recorded fan-in links. -/
structure GNode where
  name : String
  kind : SpanKind
  startTime : Int
  endTime : Int
  attrs : List (String × AttrValue)
  statusCode : StatusCode
  statusDescription : String
  depthField : Nat
  structDepth : Nat
  parentIdx : Option Nat
  parents : List Nat
  children : List Nat
  links : List Nat
  deriving DecidableEq, Repr, Inhabited

/-- Generator state: builder nodes in creation order, the two stream
positions, and a ghost count of recorded fan-in edges. -/
structure GenState where
  nodes : List GNode
  pos : Nat
  clockPos : Nat
  fanins : Nat
  resourceServiceName : String
  deriving Repr

/-- `randomIndex`: uniform draw in `[0, max)`; `max ≤ 0` yields 0 without
consuming the reader. -/
def randomIndex (r : Nat → Nat) (pos max : Nat) : Nat × Nat :=
  if max ≤ 0 then (0, pos) else (r pos % max, pos + 1)

/-- `randomSpanCount`: uniform in `[1, max]`; `max ≤ 1` yields 1. -/
def randomSpanCount (r : Nat → Nat) (pos max : Nat) : Nat × Nat :=
  if max ≤ 1 then (1, pos) else ((r pos % max) + 1, pos + 1)

def labelAlphabet : List Char :=
  "abcdefghijklmnopqrstuvwxyz0123456789".toList

/-- `randomLabel`: `<prefix>-<8 alphanumeric chars>`. -/
def randomLabel (r : Nat → Nat) (pos : Nat) (pre : String) : String × Nat :=
  (List.range 8).foldl
    (fun acc _ =>
      let d := randomIndex r acc.2 36
      (acc.1.push (labelAlphabet.getD d.1 'a'), d.2))
    (pre ++ "-", pos)

def fruitPool : List String :=
  ["apple", "apricot", "banana", "blackberry", "blueberry", "cherry", "coconut", "fig",
   "grape", "kiwi", "lemon", "lime", "mango", "melon", "nectarine", "orange", "papaya",
   "peach", "pear", "pineapple", "plum", "pomegranate", "raspberry", "strawberry",
   "watermelon"]

def swapList (l : List String) (i j : Nat) : List String :=
  let a := l.getD i ""
  let b := l.getD j ""
  (l.set i b).set j a

/-- `buildServiceNames`: explicit base name (verbatim or `-1..N`), else the
fruit pool, Fisher–Yates-shuffled with the reader, extended with
`fruit-<i>` beyond the pool. -/
def buildServiceNames (r : Nat → Nat) (pos : Nat) (count : Nat) (baseName : String) :
    List String × Nat :=
  if count = 0 then ([], pos)
  else if baseName ≠ "" then
    if count = 1 then ([baseName], pos)
    else ((List.range count).map (fun i => baseName ++ "-" ++ toString (i + 1)), pos)
  else
    let shuffled := (List.range 24).foldl
      (fun acc k =>
        let i := 24 - k
        let d := randomIndex r acc.2 (i + 1)
        (swapList acc.1 i d.1, d.2))
      (fruitPool, pos)
    if count ≤ 25 then (shuffled.1.take count, shuffled.2)
    else (shuffled.1 ++ (List.range (count - 25)).map (fun i => "fruit-" ++ toString (26 + i)),
          shuffled.2)

/-- `Generator.serviceName`: random pick from the resolved service names,
falling back to the resolved base name for an empty list. -/
def pickServiceName (svcName : String) (serviceNames : List String) (r : Nat → Nat)
    (pos : Nat) : String × Nat :=
  if serviceNames.length = 0 then (svcName, pos)
  else
    let d := randomIndex r pos serviceNames.length
    (serviceNames.getD d.1 (serviceNames.getD 0 ""), d.2)

/-- `Generator.spanName`: `<service>` when the span name is empty,
`<service>:<span name>` otherwise. -/
def pickSpanName (spanNm svcName : String) (serviceNames : List String) (r : Nat → Nat)
    (pos : Nat) : String × Nat :=
  let sv := pickServiceName svcName serviceNames r pos
  if spanNm = "" then sv else (sv.1 ++ ":" ++ spanNm, sv.2)

/-- `serviceAttributes`: `semconv.ServiceNameKey` and the literal
`service.name` key — both are the same key. -/
def serviceAttributes (serviceName : String) : List (String × AttrValue) :=
  [("service.name", .str serviceName), ("service.name", .str serviceName)]

/-- `randomSpanStatus`.  `threshold := int(errorRate * 1000)` is a float64
truncation in Go; for a positive rate it is the rational floor modelled
here.  The claims only exercise the exact `≤ 0` and `≥ 1` branches. -/
def randomSpanStatus (r : Nat → Nat) (pos : Nat) (errorRate : ℚ) :
    StatusCode × String × Int × Nat :=
  if errorRate ≤ 0 then (.ok, "", 200, pos)
  else if 1 ≤ errorRate then (.error, "simulated failure", 500, pos)
  else
    let threshold : Int := ⌊errorRate * 1000⌋
    if threshold ≤ 0 then (.ok, "", 200, pos)
    else if 1000 ≤ threshold then (.error, "simulated failure", 500, pos)
    else
      let roll := randomIndex r pos 1000
      if (roll.1 : Int) < threshold then (.error, "simulated failure", 500, roll.2)
      else (.ok, "", 200, roll.2)

/-- `appendHTTPStatusAttribute`: only Server and Client spans carry
`http.response.status_code`. -/
def appendHTTPStatusAttribute (attrs : List (String × AttrValue)) (kind : SpanKind)
    (httpStatus : Int) : List (String × AttrValue) :=
  if kind ≠ .server ∧ kind ≠ .client then attrs
  else attrs ++ [("http.response.status_code", .int httpStatus)]

/-- `randomSpanKind`: uniform over the five kinds. -/
def randomSpanKind (r : Nat → Nat) (pos : Nat) : SpanKind × Nat :=
  let d := randomIndex r pos 5
  ([SpanKind.client, .server, .producer, .consumer, .internal].getD d.1 .internal, d.2)

/-- The four duration buckets of `randomSpanDuration`, in nanoseconds. -/
def durationBucket : Nat → Int × Int
  | 0 => (1000000, 80000000)
  | 1 => (80000000, 900000000)
  | 2 => (900000000, 8000000000)
  | _ => (8000000000, 120000000000)

/-- `randomDurationRange`: uniform in `[lo, hi]`; `hi ≤ lo` yields `lo`
without consuming the reader. -/
def randomDurationRange (r : Nat → Nat) (pos : Nat) (lo hi : Int) : Int × Nat :=
  if hi ≤ lo then (lo, pos)
  else
    let delta := hi - lo
    (lo + (r pos : Int) % (delta + 1), pos + 1)

/-- `randomSpanDuration`: pick a bucket, then a duration inside it. -/
def randomSpanDuration (r : Nat → Nat) (pos : Nat) : Int × Nat :=
  randomDurationRange r (randomIndex r pos 4).2
    (durationBucket (randomIndex r pos 4).1).1 (durationBucket (randomIndex r pos 4).1).2

/-- The `latestStart` of `randomChildWindow`: `parentEnd − duration`,
clamped up to `parentStart`. -/
def childLatestStart (parentStart parentEnd duration : Int) : Int :=
  if parentEnd - duration < parentStart then parentStart else parentEnd - duration

/-- `randomChildWindow`: the child start is uniform in
`[parentStart, parentEnd − duration]`. -/
def randomChildWindow (r : Nat → Nat) (pos : Nat) (parentStart parentEnd duration : Int) :
    Int × Int × Nat :=
  if duration ≤ 0 then (parentStart, parentStart, pos)
  else if parentEnd < parentStart then (parentStart, parentEnd, pos)
  else
    (parentStart +
       (randomDurationRange r pos 0 (childLatestStart parentStart parentEnd duration -
          parentStart)).1,
     parentStart +
       (randomDurationRange r pos 0 (childLatestStart parentStart parentEnd duration -
          parentStart)).1 + duration,
     (randomDurationRange r pos 0 (childLatestStart parentStart parentEnd duration -
        parentStart)).2)

/-- `dbAttributes`: the db system is selected from `time.Now().UnixNano()`,
modelled by the clock stream. -/
def dbSystems : List String := ["postgresql", "mysql", "redis", "mongodb"]

def dbAttributes (clock : Nat → Nat) (cpos : Nat) : List (String × AttrValue) × Nat :=
  let idx := clock cpos % 4
  ([("db.system", .str (dbSystems.getD idx "")), ("db.name", .str "example")], cpos + 1)

/-- `TraceBuilder.newSpan` (+ `addChild` for the creation parent): append a
node; a parented node joins the parent's children and gets depth
`parent.depth + 1`. -/
def newSpanNode (st : GenState) (parentIdx : Option Nat) (name : String) (kind : SpanKind)
    (startT endT : Int) (attrs : List (String × AttrValue)) (sc : StatusCode)
    (sd : String) : GenState :=
  let idx := st.nodes.length
  let base : GNode :=
    { name := name, kind := kind, startTime := startT, endTime := endT, attrs := attrs,
      statusCode := sc, statusDescription := sd, depthField := 1, structDepth := 1,
      parentIdx := none, parents := [], children := [], links := [] }
  match parentIdx with
  | none => { st with nodes := st.nodes ++ [base] }
  | some p =>
    let pn := st.nodes.getD p default
    let node := { base with
      depthField := pn.depthField + 1, structDepth := pn.structDepth + 1,
      parentIdx := some p, parents := [p] }
    { st with nodes := (st.nodes.set p { pn with children := pn.children ++ [idx] }) ++ [node] }

/-- `SpanBuilder.hasAncestor`, run on fuel (the parents graph is acyclic
and indices-bounded, so `nodes.length` fuel reaches every ancestor). -/
def hasAncestorFuel (nodes : List GNode) : Nat → Nat → Nat → Bool
  | 0, _, _ => false
  | fuel + 1, sIdx, tIdx =>
    ((nodes.getD sIdx default).parents).any
      (fun p => p = tIdx || hasAncestorFuel nodes fuel p tIdx)

def hasAncestor (nodes : List GNode) (sIdx tIdx : Nat) : Bool :=
  hasAncestorFuel nodes nodes.length sIdx tIdx

def hasChildIdx (nodes : List GNode) (sIdx cIdx : Nat) : Bool :=
  (nodes.getD sIdx default).children.contains cIdx

/-- `SpanBuilder.bumpDepth`, on fuel (within `AddChild` the call is a
no-op: the new depth never exceeds the child's just-assigned depth). -/
def bumpDepth (nodes : List GNode) : Nat → Nat → Nat → List GNode
  | 0, _, _ => nodes
  | fuel + 1, idx, depth =>
    let n := nodes.getD idx default
    if depth ≤ n.depthField then nodes
    else
      let nodes' := nodes.set idx { n with depthField := depth }
      n.children.foldl (fun acc c => bumpDepth acc fuel c (depth + 1)) nodes'

/-- The fan-in parent with the extra child edge appended. -/
def faninParent (s : GNode) (cIdx : Nat) : GNode :=
  { s with children := s.children ++ [cIdx] }

/-- The fan-in child: extra parent edge, overwritten depth field, and the
recorded link. -/
def faninChild (c : GNode) (sIdx : Nat) (d : Nat) : GNode :=
  { c with parents := c.parents ++ [sIdx], depthField := d, links := c.links ++ [sIdx] }

/-- `s.addChild(child)` + `AddLink` inside `AddChild`. -/
def faninNodes (nodes : List GNode) (sIdx cIdx : Nat) : List GNode :=
  (nodes.set sIdx (faninParent (nodes.getD sIdx default) cIdx)).set cIdx
    (faninChild (nodes.getD cIdx default) sIdx ((nodes.getD sIdx default).depthField + 1))

/-- The subsequent `bumpDepth` call of `AddChild` (a no-op, since the
child's depth field was just set to the new depth). -/
def faninBumped (nodes : List GNode) (sIdx cIdx : Nat) : List GNode :=
  if ((faninNodes nodes sIdx cIdx).getD cIdx default).depthField <
      (nodes.getD sIdx default).depthField + 1
  then bumpDepth (faninNodes nodes sIdx cIdx) (faninNodes nodes sIdx cIdx).length cIdx
    ((nodes.getD sIdx default).depthField + 1)
  else faninNodes nodes sIdx cIdx

/-- `SpanBuilder.AddChild` (fan-in): guard against self, cycles and
duplicates; append the extra edge, record a link on the child, overwrite
the child's depth field with `parent.depth + 1`, then bump. -/
def addChildFanin (st : GenState) (sIdx cIdx : Nat) : GenState :=
  if cIdx = sIdx || hasAncestor st.nodes sIdx cIdx || hasChildIdx st.nodes sIdx cIdx then st
  else { st with nodes := faninBumped st.nodes sIdx cIdx, fanins := st.fanins + 1 }

/-- `pickParentIndex` random tries (10 attempts), then first-suitable
scan, then fallback to the root. -/
def scanParentIndex (nodes : List GNode) (maxDepth : Nat) : Nat :=
  match nodes.findIdx? (fun n => n.depthField < maxDepth) with
  | some i => i
  | none => 0

def pickParentTries (nodes : List GNode) (maxDepth : Nat) (r : Nat → Nat) :
    Nat → Nat → Nat × Nat
  | 0, pos => (scanParentIndex nodes maxDepth, pos)
  | t + 1, pos =>
    if (nodes.getD (randomIndex r pos nodes.length).1 default).depthField < maxDepth then
      ((randomIndex r pos nodes.length).1, (randomIndex r pos nodes.length).2)
    else pickParentTries nodes maxDepth r t (randomIndex r pos nodes.length).2

def pickParentIndex (nodes : List GNode) (maxDepth : Nat) (r : Nat → Nat) (pos : Nat) :
    Nat × Nat :=
  if maxDepth ≤ 1 then (0, pos)
  else pickParentTries nodes maxDepth r 10 pos

/-- `pickLinkCandidate`: up to 12 attempts for a non-ancestor node at
depth ≥ parent.depth + 1. -/
def pickLinkTries (nodes : List GNode) (parentIdx maxDepth : Nat) (r : Nat → Nat) :
    Nat → Nat → Option Nat × Nat
  | 0, pos => (none, pos)
  | t + 1, pos =>
    if (randomIndex r pos nodes.length).1 = parentIdx ||
        hasAncestor nodes parentIdx (randomIndex r pos nodes.length).1 then
      pickLinkTries nodes parentIdx maxDepth r t (randomIndex r pos nodes.length).2
    else if (nodes.getD (randomIndex r pos nodes.length).1 default).depthField <
        (nodes.getD parentIdx default).depthField + 1 then
      pickLinkTries nodes parentIdx maxDepth r t (randomIndex r pos nodes.length).2
    else (some (randomIndex r pos nodes.length).1, (randomIndex r pos nodes.length).2)

def pickLinkCandidate (nodes : List GNode) (parentIdx maxDepth : Nat) (r : Nat → Nat)
    (pos : Nat) : Option Nat × Nat :=
  if nodes.length < 2 ∨ maxDepth ≤ (nodes.getD parentIdx default).depthField then (none, pos)
  else pickLinkTries nodes parentIdx maxDepth r 12 pos

/-! `Generator.emitChildSpan`, staged: draw a duration, clamp it to the
parent's window, place the child window inside the parent's, pick service,
status and name (in the reader order of the source), and append the child
under `parentIdx`. -/

/-- The drawn child duration, clamped to the parent's window. -/
def ecsDuration (r : Nat → Nat) (st : GenState) (parentIdx : Nat) : Int :=
  if (st.nodes.getD parentIdx default).endTime - (st.nodes.getD parentIdx default).startTime <
      (randomSpanDuration r st.pos).1
  then (st.nodes.getD parentIdx default).endTime - (st.nodes.getD parentIdx default).startTime
  else (randomSpanDuration r st.pos).1

/-- The child's `(start, end, next position)` window. -/
def ecsWindow (r : Nat → Nat) (st : GenState) (parentIdx : Nat) : Int × Int × Nat :=
  randomChildWindow r (randomSpanDuration r st.pos).2
    (st.nodes.getD parentIdx default).startTime
    (st.nodes.getD parentIdx default).endTime
    (ecsDuration r st parentIdx)

def ecsService (svcName : String) (serviceNames : List String) (r : Nat → Nat)
    (st : GenState) (parentIdx : Nat) : String × Nat :=
  pickServiceName svcName serviceNames r (ecsWindow r st parentIdx).2.2

def ecsStatus (g : GenCfg) (svcName : String) (serviceNames : List String) (r : Nat → Nat)
    (st : GenState) (parentIdx : Nat) : StatusCode × String × Int × Nat :=
  randomSpanStatus r (ecsService svcName serviceNames r st parentIdx).2 g.errorRate

def ecsAttrs (g : GenCfg) (svcName : String) (serviceNames : List String) (r : Nat → Nat)
    (st : GenState) (parentIdx : Nat) (kind : SpanKind)
    (extraAttrs : List (String × AttrValue)) : List (String × AttrValue) :=
  appendHTTPStatusAttribute
    (serviceAttributes (ecsService svcName serviceNames r st parentIdx).1 ++ extraAttrs)
    kind (ecsStatus g svcName serviceNames r st parentIdx).2.2.1

def ecsName (g : GenCfg) (svcName spanNm : String) (serviceNames : List String)
    (r : Nat → Nat) (st : GenState) (parentIdx : Nat) : String × Nat :=
  pickSpanName spanNm svcName serviceNames r
    (ecsStatus g svcName serviceNames r st parentIdx).2.2.2

def emitChildSpan (g : GenCfg) (svcName spanNm : String) (serviceNames : List String)
    (r : Nat → Nat) (st : GenState) (parentIdx : Nat) (kind : SpanKind)
    (extraAttrs : List (String × AttrValue)) : GenState × Nat :=
  (newSpanNode { st with pos := (ecsName g svcName spanNm serviceNames r st parentIdx).2 }
     (some parentIdx) (ecsName g svcName spanNm serviceNames r st parentIdx).1 kind
     (ecsWindow r st parentIdx).1 (ecsWindow r st parentIdx).2.1
     (ecsAttrs g svcName serviceNames r st parentIdx kind extraAttrs)
     (ecsStatus g svcName serviceNames r st parentIdx).1
     (ecsStatus g svcName serviceNames r st parentIdx).2.1,
   st.nodes.length)

/-- `Generator.emitPairedSpan`: a child of `parentIdx` with `parentKind`,
then a child of that child with `childKind`. -/
def emitPairedSpan (g : GenCfg) (svcName spanNm : String) (serviceNames : List String)
    (r : Nat → Nat) (st : GenState) (parentIdx : Nat) (parentKind childKind : SpanKind) :
    GenState :=
  (emitChildSpan g svcName spanNm serviceNames r
     (emitChildSpan g svcName spanNm serviceNames r st parentIdx parentKind []).1
     (emitChildSpan g svcName spanNm serviceNames r st parentIdx parentKind []).2
     childKind []).1

/-! The emission loop of `emitTrace`, on fuel.  `remaining` is
`spansRemaining`; the loop breaks when the picked parent has no room
under MaxDepth, skips pair choices when fewer than 2 spans remain, and a
fan-in choice without candidate is a plain retry.  The per-iteration
pieces are named (`el...`) to keep the loop body first-order. -/

/-- The picked parent index and the position after the pick. -/
def elParent (g : GenCfg) (r : Nat → Nat) (st : GenState) : Nat × Nat :=
  pickParentIndex st.nodes g.maxDepth r st.pos

def elSt1 (g : GenCfg) (r : Nat → Nat) (st : GenState) : GenState :=
  { st with pos := (elParent g r st).2 }

/-- The edge-kind choice (uniform in `[0, 4)`). -/
def elChoice (g : GenCfg) (r : Nat → Nat) (st : GenState) : Nat × Nat :=
  randomIndex r (elSt1 g r st).pos 4

def elSt2 (g : GenCfg) (r : Nat → Nat) (st : GenState) : GenState :=
  { elSt1 g r st with pos := (elChoice g r st).2 }

def elPairKinds (choice : Nat) : SpanKind × SpanKind :=
  if choice = 0 then (.client, .server) else (.producer, .consumer)

/-- The state after consuming the clock for `dbAttributes`. -/
def elDbSt (g : GenCfg) (r clock : Nat → Nat) (st : GenState) : GenState :=
  { elSt2 g r st with clockPos := (dbAttributes clock (elSt2 g r st).clockPos).2 }

def elLink (g : GenCfg) (r : Nat → Nat) (st : GenState) : Option Nat × Nat :=
  pickLinkCandidate (elSt2 g r st).nodes (elParent g r st).1 g.maxDepth r (elSt2 g r st).pos

def elSt3 (g : GenCfg) (r : Nat → Nat) (st : GenState) : GenState :=
  { elSt2 g r st with pos := (elLink g r st).2 }

def emitLoop (g : GenCfg) (svcName spanNm : String) (serviceNames : List String)
    (r clock : Nat → Nat) : Nat → Nat → GenState → GenState
  | 0, _, st => st
  | fuel + 1, remaining, st =>
    if remaining = 0 then st
    else if g.maxDepth ≤
        ((elSt1 g r st).nodes.getD (elParent g r st).1 default).depthField then elSt1 g r st
    else if (elChoice g r st).1 = 0 ∨ (elChoice g r st).1 = 1 then
      if remaining < 2 then
        emitLoop g svcName spanNm serviceNames r clock fuel remaining (elSt2 g r st)
      else
        emitLoop g svcName spanNm serviceNames r clock fuel (remaining - 2)
          (emitPairedSpan g svcName spanNm serviceNames r (elSt2 g r st)
            (elParent g r st).1 (elPairKinds (elChoice g r st).1).1
            (elPairKinds (elChoice g r st).1).2)
    else if (elChoice g r st).1 = 2 then
      emitLoop g svcName spanNm serviceNames r clock fuel (remaining - 1)
        (emitChildSpan g svcName spanNm serviceNames r (elDbSt g r clock st)
          (elParent g r st).1 .client
          (dbAttributes clock (elSt2 g r st).clockPos).1).1
    else
      match (elLink g r st).1 with
      | none => emitLoop g svcName spanNm serviceNames r clock fuel remaining (elSt3 g r st)
      | some cIdx =>
        emitLoop g svcName spanNm serviceNames r clock fuel remaining
          (addChildFanin (elSt3 g r st) (elParent g r st).1 cIdx)

/-! `Generator.emitTrace`, staged: span count (clamped to at least 1),
trace id (one reader draw), root duration, root service/kind/status/name
in source order, root span ending at `now`, then the emission loop. -/

/-- The drawn span count, after the `spanCount < 1` clamp. -/
def etCount (g : GenCfg) (r : Nat → Nat) (pos0 : Nat) : Nat :=
  if (randomSpanCount r pos0 g.maxSpans).1 < 1 then 1
  else (randomSpanCount r pos0 g.maxSpans).1

/-- Root duration, drawn after the trace-id read consumed one position. -/
def etDur (g : GenCfg) (r : Nat → Nat) (pos0 : Nat) : Int × Nat :=
  randomSpanDuration r ((randomSpanCount r pos0 g.maxSpans).2 + 1)

def etSv (g : GenCfg) (svcName : String) (serviceNames : List String) (r : Nat → Nat)
    (pos0 : Nat) : String × Nat :=
  pickServiceName svcName serviceNames r (etDur g r pos0).2

def etKind (g : GenCfg) (svcName : String) (serviceNames : List String) (r : Nat → Nat)
    (pos0 : Nat) : SpanKind × Nat :=
  randomSpanKind r (etSv g svcName serviceNames r pos0).2

def etStatus (g : GenCfg) (svcName : String) (serviceNames : List String) (r : Nat → Nat)
    (pos0 : Nat) : StatusCode × String × Int × Nat :=
  randomSpanStatus r (etKind g svcName serviceNames r pos0).2 g.errorRate

def etAttrs (g : GenCfg) (svcName : String) (serviceNames : List String) (r : Nat → Nat)
    (pos0 : Nat) : List (String × AttrValue) :=
  appendHTTPStatusAttribute (serviceAttributes (etSv g svcName serviceNames r pos0).1)
    (etKind g svcName serviceNames r pos0).1
    (etStatus g svcName serviceNames r pos0).2.2.1

def etName (g : GenCfg) (svcName spanNm : String) (serviceNames : List String)
    (r : Nat → Nat) (pos0 : Nat) : String × Nat :=
  pickSpanName spanNm svcName serviceNames r
    (etStatus g svcName serviceNames r pos0).2.2.2

/-- The builder state holding just the root span. -/
def etRoot (g : GenCfg) (svcName spanNm : String) (serviceNames : List String)
    (r : Nat → Nat) (now : Int) (pos0 : Nat) : GenState :=
  newSpanNode
    { nodes := [], pos := (etName g svcName spanNm serviceNames r pos0).2, clockPos := 0,
      fanins := 0, resourceServiceName := svcName }
    none (etName g svcName spanNm serviceNames r pos0).1
    (etKind g svcName serviceNames r pos0).1 (now - (etDur g r pos0).1) now
    (etAttrs g svcName serviceNames r pos0) (etStatus g svcName serviceNames r pos0).1
    (etStatus g svcName serviceNames r pos0).2.1

def emitTrace (g : GenCfg) (svcName spanNm : String) (serviceNames : List String)
    (r clock : Nat → Nat) (now : Int) (pos0 : Nat) (fuel : Nat) : GenState :=
  emitLoop g svcName spanNm serviceNames r clock fuel (etCount g r pos0 - 1)
    (etRoot g svcName spanNm serviceNames r now pos0)

/-! `Generator.GenerateBatch`: resolve the service and span base names,
then emit one trace; the batch is the node list in creation order. -/

def gbServiceNames (g : GenCfg) (r : Nat → Nat) : List String × Nat :=
  buildServiceNames r 0 g.services g.serviceName

def gbSvc (g : GenCfg) (r : Nat → Nat) : String × Nat :=
  if g.serviceName = "" then
    if (gbServiceNames g r).1.length ≠ 0 then
      ((gbServiceNames g r).1.getD 0 "", (gbServiceNames g r).2)
    else randomLabel r (gbServiceNames g r).2 "service"
  else (g.serviceName, (gbServiceNames g r).2)

def gbSpan (g : GenCfg) (r : Nat → Nat) : String × Nat :=
  if g.spanName = "" then randomLabel r (gbSvc g r).2 "span"
  else (g.spanName, (gbSvc g r).2)

def generateBatch (g : GenCfg) (r clock : Nat → Nat) (now : Int) (fuel : Nat) : GenState :=
  emitTrace g (gbSvc g r).1 (gbSpan g r).1 (gbServiceNames g r).1 r clock now
    (gbSpan g r).2 fuel

/-! ## Bounds on the generator's random draws -/

theorem randomIndex_lt (r : Nat → Nat) (pos max : Nat) (h : 0 < max) :
    (randomIndex r pos max).1 < max := by
  unfold randomIndex
  rw [if_neg (by omega)]
  exact Nat.mod_lt _ h

theorem randomDurationRange_bounds (r : Nat → Nat) (pos : Nat) (lo hi : Int) (h : lo ≤ hi) :
    lo ≤ (randomDurationRange r pos lo hi).1 ∧ (randomDurationRange r pos lo hi).1 ≤ hi := by
  unfold randomDurationRange
  by_cases hle : hi ≤ lo
  · rw [if_pos hle]
    exact ⟨le_refl lo, h⟩
  · rw [if_neg hle]
    have hpos : (0 : Int) < hi - lo + 1 := by omega
    have hm0 : 0 ≤ (r pos : Int) % (hi - lo + 1) := Int.emod_nonneg _ (by omega)
    have hm1 : (r pos : Int) % (hi - lo + 1) < hi - lo + 1 := Int.emod_lt_of_pos _ hpos
    constructor
    · show lo ≤ lo + (r pos : Int) % (hi - lo + 1)
      omega
    · show lo + (r pos : Int) % (hi - lo + 1) ≤ hi
      omega

theorem durationBucket_bounds (b : Nat) :
    1000000 ≤ (durationBucket b).1 ∧ (durationBucket b).1 ≤ (durationBucket b).2 := by
  unfold durationBucket
  split <;> exact ⟨by norm_num, by norm_num⟩

theorem randomSpanDuration_ge (r : Nat → Nat) (pos : Nat) :
    1000000 ≤ (randomSpanDuration r pos).1 := by
  unfold randomSpanDuration
  have hb := durationBucket_bounds (randomIndex r pos 4).1
  have h2 := randomDurationRange_bounds r (randomIndex r pos 4).2
    (durationBucket (randomIndex r pos 4).1).1 (durationBucket (randomIndex r pos 4).1).2 hb.2
  omega

theorem randomChildWindow_bounds (r : Nat → Nat) (pos : Nat) (ps pe dur : Int)
    (hd : 0 < dur) (hw : dur ≤ pe - ps) :
    ps ≤ (randomChildWindow r pos ps pe dur).1 ∧
    (randomChildWindow r pos ps pe dur).2.1 ≤ pe ∧
    (randomChildWindow r pos ps pe dur).2.1 - (randomChildWindow r pos ps pe dur).1 = dur := by
  unfold randomChildWindow
  rw [if_neg (by omega), if_neg (by omega)]
  have hcl : childLatestStart ps pe dur = pe - dur := by
    unfold childLatestStart
    rw [if_neg (by omega)]
  have hoff := randomDurationRange_bounds r pos 0 (childLatestStart ps pe dur - ps)
    (by rw [hcl]; omega)
  rw [hcl] at hoff
  refine ⟨?_, ?_, ?_⟩
  · show ps ≤ ps + (randomDurationRange r pos 0 (childLatestStart ps pe dur - ps)).1
    rw [hcl]
    omega
  · show ps + (randomDurationRange r pos 0 (childLatestStart ps pe dur - ps)).1 + dur ≤ pe
    rw [hcl]
    omega
  · show ps + (randomDurationRange r pos 0 (childLatestStart ps pe dur - ps)).1 + dur -
      (ps + (randomDurationRange r pos 0 (childLatestStart ps pe dur - ps)).1) = dur
    omega

theorem randomSpanCount_bounds (r : Nat → Nat) (pos max : Nat) (h : 1 ≤ max) :
    1 ≤ (randomSpanCount r pos max).1 ∧ (randomSpanCount r pos max).1 ≤ max := by
  unfold randomSpanCount
  by_cases h1 : max ≤ 1
  · rw [if_pos h1]
    exact ⟨le_refl 1, h⟩
  · rw [if_neg h1]
    have := Nat.mod_lt (r pos) (show 0 < max by omega)
    exact ⟨by omega, by omega⟩

theorem randomSpanStatus_zero (r : Nat → Nat) (pos : Nat) (rate : ℚ) (h : rate ≤ 0) :
    randomSpanStatus r pos rate = (.ok, "", 200, pos) := by
  unfold randomSpanStatus
  rw [if_pos h]

theorem randomSpanStatus_one (r : Nat → Nat) (pos : Nat) (rate : ℚ) (h : 1 ≤ rate) :
    randomSpanStatus r pos rate = (.error, "simulated failure", 500, pos) := by
  unfold randomSpanStatus
  rw [if_neg (by linarith), if_pos h]

/-! ## List access helpers for the node arena -/

theorem getD_append_lt {α : Type} (l : List α) (x d : α) (q : Nat) (h : q < l.length) :
    (l ++ [x]).getD q d = l.getD q d := by
  simp [List.getD_eq_getElem?_getD, List.getElem?_append_left h]

theorem getD_append_len {α : Type} (l : List α) (x d : α) :
    (l ++ [x]).getD l.length d = x := by
  simp [List.getD_eq_getElem?_getD, List.getElem?_concat_length]

theorem mapLookup_append (a b : AttrMap) (k : String) :
    mapLookup (a ++ b) k =
      match mapLookup a k with
      | some v => some v
      | none => mapLookup b k := by
  induction a with
  | nil => rfl
  | cons kv rest ih =>
    by_cases hk : kv.1 = k
    · simp [mapLookup, hk]
    · simpa [mapLookup, hk] using ih

/-! ## Generator invariants

`DepthInv` bounds the builder's depth field, `EqDepth` says that without
fan-in the depth field agrees with the structural (creation-chain) depth,
`TimeInv` is strict positivity plus parent-window containment, and
`StatusOk` captures the status/HTTP-attribute discipline per span. -/

def DepthInv (maxDepth : Nat) (nodes : List GNode) : Prop :=
  ∀ n ∈ nodes, n.depthField ≤ maxDepth + 1

def EqDepth (st : GenState) : Prop :=
  st.fanins = 0 → ∀ n ∈ st.nodes, n.structDepth = n.depthField

def TimeInv (nodes : List GNode) : Prop :=
  ∀ i, i < nodes.length →
    (nodes.getD i default).startTime < (nodes.getD i default).endTime ∧
    ∀ p, (nodes.getD i default).parentIdx = some p →
      p < i ∧
      (nodes.getD p default).startTime ≤ (nodes.getD i default).startTime ∧
      (nodes.getD i default).endTime ≤ (nodes.getD p default).endTime

/-- The status discipline on one span's components. -/
def StatusOkC (rate : ℚ) (kind : SpanKind) (sc : StatusCode) (sd : String)
    (attrs : List (String × AttrValue)) : Prop :=
  (rate ≤ 0 → sc = .ok ∧ sd = "" ∧
    ((kind = .server ∨ kind = .client) →
      mapLookup attrs "http.response.status_code" = some (.int 200))) ∧
  (1 ≤ rate → sc = .error ∧ sd = "simulated failure" ∧
    ((kind = .server ∨ kind = .client) →
      mapLookup attrs "http.response.status_code" = some (.int 500))) ∧
  (¬(kind = .server ∨ kind = .client) →
    mapLookup attrs "http.response.status_code" = none)

def StatusOk (rate : ℚ) (n : GNode) : Prop :=
  StatusOkC rate n.kind n.statusCode n.statusDescription n.attrs

def StatusInv (rate : ℚ) (nodes : List GNode) : Prop :=
  ∀ n ∈ nodes, StatusOk rate n

def GenInv (g : GenCfg) (st : GenState) : Prop :=
  st.nodes ≠ [] ∧ DepthInv g.maxDepth st.nodes ∧ EqDepth st ∧ TimeInv st.nodes ∧
  StatusInv g.errorRate st.nodes

theorem getD_mem_of_lt {α : Type} [Inhabited α] (l : List α) (q : Nat) (h : q < l.length) :
    l.getD q default ∈ l := by
  rw [List.getD_eq_getElem?_getD, List.getElem?_eq_getElem h]
  exact List.getElem_mem h

/-! ### `newSpanNode` characterization -/

/-- The parent node with one more recorded child. -/
def withChildAdded (pn : GNode) (idx : Nat) : GNode :=
  { pn with children := pn.children ++ [idx] }

/-- The freshly created child node of `newSpanNode`. -/
def childNode (p : Nat) (pn : GNode) (name : String) (kind : SpanKind) (startT endT : Int)
    (attrs : List (String × AttrValue)) (sc : StatusCode) (sd : String) : GNode :=
  { name := name, kind := kind, startTime := startT, endTime := endT, attrs := attrs,
    statusCode := sc, statusDescription := sd, depthField := pn.depthField + 1,
    structDepth := pn.structDepth + 1, parentIdx := some p, parents := [p], children := [],
    links := [] }

theorem newSpanNode_some_nodes (st : GenState) (p : Nat) (name : String) (kind : SpanKind)
    (startT endT : Int) (attrs : List (String × AttrValue)) (sc : StatusCode) (sd : String) :
    (newSpanNode st (some p) name kind startT endT attrs sc sd).nodes =
      (st.nodes.set p (withChildAdded (st.nodes.getD p default) st.nodes.length)) ++
      [childNode p (st.nodes.getD p default) name kind startT endT attrs sc sd] := rfl

theorem newSpanNode_some_aux (st : GenState) (p : Nat) (name : String) (kind : SpanKind)
    (startT endT : Int) (attrs : List (String × AttrValue)) (sc : StatusCode) (sd : String) :
    (newSpanNode st (some p) name kind startT endT attrs sc sd).pos = st.pos ∧
    (newSpanNode st (some p) name kind startT endT attrs sc sd).clockPos = st.clockPos ∧
    (newSpanNode st (some p) name kind startT endT attrs sc sd).fanins = st.fanins :=
  ⟨rfl, rfl, rfl⟩

theorem newSpanNode_some_len (st : GenState) (p : Nat) (name : String) (kind : SpanKind)
    (startT endT : Int) (attrs : List (String × AttrValue)) (sc : StatusCode) (sd : String) :
    (newSpanNode st (some p) name kind startT endT attrs sc sd).nodes.length =
      st.nodes.length + 1 := by
  rw [newSpanNode_some_nodes]
  simp

theorem newSpanNode_getD_old (st : GenState) (p : Nat) (name : String) (kind : SpanKind)
    (startT endT : Int) (attrs : List (String × AttrValue)) (sc : StatusCode) (sd : String)
    (q : Nat) (hq : q < st.nodes.length) (hqp : q ≠ p) :
    (newSpanNode st (some p) name kind startT endT attrs sc sd).nodes.getD q default =
      st.nodes.getD q default := by
  rw [newSpanNode_some_nodes, getD_append_lt _ _ _ _ (by simpa using hq),
    getD_set_ne _ _ _ _ _ (fun he => hqp he.symm)]

theorem newSpanNode_getD_parent (st : GenState) (p : Nat) (name : String) (kind : SpanKind)
    (startT endT : Int) (attrs : List (String × AttrValue)) (sc : StatusCode) (sd : String)
    (hp : p < st.nodes.length) :
    (newSpanNode st (some p) name kind startT endT attrs sc sd).nodes.getD p default =
      withChildAdded (st.nodes.getD p default) st.nodes.length := by
  rw [newSpanNode_some_nodes, getD_append_lt _ _ _ _ (by simpa using hp),
    getD_set_self _ _ _ _ hp]

theorem newSpanNode_getD_new (st : GenState) (p : Nat) (name : String) (kind : SpanKind)
    (startT endT : Int) (attrs : List (String × AttrValue)) (sc : StatusCode) (sd : String) :
    (newSpanNode st (some p) name kind startT endT attrs sc sd).nodes.getD
        st.nodes.length default =
      childNode p (st.nodes.getD p default) name kind startT endT attrs sc sd := by
  rw [newSpanNode_some_nodes]
  have hlen : st.nodes.length =
      (st.nodes.set p (withChildAdded (st.nodes.getD p default) st.nodes.length)).length := by
    simp
  rw [show (st.nodes.set p (withChildAdded (st.nodes.getD p default) st.nodes.length) ++
      [childNode p (st.nodes.getD p default) name kind startT endT attrs sc sd]).getD
      st.nodes.length default =
    (st.nodes.set p (withChildAdded (st.nodes.getD p default) st.nodes.length) ++
      [childNode p (st.nodes.getD p default) name kind startT endT attrs sc sd]).getD
      (st.nodes.set p (withChildAdded (st.nodes.getD p default) st.nodes.length)).length
      default from by rw [← hlen]]
  exact getD_append_len _ _ _

/-- All invariant-relevant fields of pre-existing nodes survive
`newSpanNode` (the parent only gains a child entry). -/
theorem newSpanNode_core (st : GenState) (p : Nat) (name : String) (kind : SpanKind)
    (startT endT : Int) (attrs : List (String × AttrValue)) (sc : StatusCode) (sd : String)
    (q : Nat) (hq : q < st.nodes.length) :
    ((newSpanNode st (some p) name kind startT endT attrs sc sd).nodes.getD q
        default).startTime = (st.nodes.getD q default).startTime ∧
    ((newSpanNode st (some p) name kind startT endT attrs sc sd).nodes.getD q
        default).endTime = (st.nodes.getD q default).endTime ∧
    ((newSpanNode st (some p) name kind startT endT attrs sc sd).nodes.getD q
        default).parentIdx = (st.nodes.getD q default).parentIdx ∧
    ((newSpanNode st (some p) name kind startT endT attrs sc sd).nodes.getD q
        default).depthField = (st.nodes.getD q default).depthField ∧
    ((newSpanNode st (some p) name kind startT endT attrs sc sd).nodes.getD q
        default).structDepth = (st.nodes.getD q default).structDepth := by
  by_cases hqp : q = p
  · subst hqp
    rw [newSpanNode_getD_parent _ _ _ _ _ _ _ _ _ hq]
    exact ⟨rfl, rfl, rfl, rfl, rfl⟩
  · rw [newSpanNode_getD_old _ _ _ _ _ _ _ _ _ _ hq hqp]
    exact ⟨rfl, rfl, rfl, rfl, rfl⟩

/-! ### Status and window obligations for a drawn span -/

theorem mapLookup_serviceAttributes_http (s : String) :
    mapLookup (serviceAttributes s) "http.response.status_code" = none := by
  unfold serviceAttributes
  unfold mapLookup
  rw [if_neg (by decide)]
  unfold mapLookup
  rw [if_neg (by decide)]
  rfl

theorem appendHTTP_lookup_sc (base : List (String × AttrValue)) (kind : SpanKind) (v : Int)
    (hbase : mapLookup base "http.response.status_code" = none)
    (hk : kind = .server ∨ kind = .client) :
    mapLookup (appendHTTPStatusAttribute base kind v) "http.response.status_code" =
      some (.int v) := by
  unfold appendHTTPStatusAttribute
  rw [if_neg (by rcases hk with hk | hk <;> simp [hk])]
  rw [mapLookup_append, hbase]
  rfl

theorem appendHTTP_lookup_other (base : List (String × AttrValue)) (kind : SpanKind) (v : Int)
    (hbase : mapLookup base "http.response.status_code" = none)
    (hk : ¬(kind = .server ∨ kind = .client)) :
    mapLookup (appendHTTPStatusAttribute base kind v) "http.response.status_code" = none := by
  unfold appendHTTPStatusAttribute
  rw [if_pos ⟨fun h => hk (Or.inl h), fun h => hk (Or.inr h)⟩]
  exact hbase

theorem statusOkC_draw (rate : ℚ) (r : Nat → Nat) (pos : Nat) (kind : SpanKind)
    (base : List (String × AttrValue))
    (hbase : mapLookup base "http.response.status_code" = none) :
    StatusOkC rate kind (randomSpanStatus r pos rate).1 (randomSpanStatus r pos rate).2.1
      (appendHTTPStatusAttribute base kind (randomSpanStatus r pos rate).2.2.1) := by
  refine ⟨fun h0 => ?_, fun h1 => ?_, fun hk => appendHTTP_lookup_other _ _ _ hbase hk⟩
  · rw [randomSpanStatus_zero r pos rate h0]
    exact ⟨rfl, rfl, fun hk => appendHTTP_lookup_sc _ _ _ hbase hk⟩
  · rw [randomSpanStatus_one r pos rate h1]
    exact ⟨rfl, rfl, fun hk => appendHTTP_lookup_sc _ _ _ hbase hk⟩

theorem ecsDuration_bounds (r : Nat → Nat) (st : GenState) (parentIdx : Nat)
    (ht : (st.nodes.getD parentIdx default).startTime <
      (st.nodes.getD parentIdx default).endTime) :
    0 < ecsDuration r st parentIdx ∧
    ecsDuration r st parentIdx ≤ (st.nodes.getD parentIdx default).endTime -
      (st.nodes.getD parentIdx default).startTime := by
  unfold ecsDuration
  by_cases hc : (st.nodes.getD parentIdx default).endTime -
      (st.nodes.getD parentIdx default).startTime < (randomSpanDuration r st.pos).1
  · rw [if_pos hc]
    exact ⟨by omega, by omega⟩
  · rw [if_neg hc]
    have hge := randomSpanDuration_ge r st.pos
    exact ⟨by omega, by omega⟩

theorem ecsWindow_bounds (r : Nat → Nat) (st : GenState) (parentIdx : Nat)
    (ht : (st.nodes.getD parentIdx default).startTime <
      (st.nodes.getD parentIdx default).endTime) :
    (st.nodes.getD parentIdx default).startTime ≤ (ecsWindow r st parentIdx).1 ∧
    (ecsWindow r st parentIdx).2.1 ≤ (st.nodes.getD parentIdx default).endTime ∧
    (ecsWindow r st parentIdx).1 < (ecsWindow r st parentIdx).2.1 := by
  have hd := ecsDuration_bounds r st parentIdx ht
  have hw := randomChildWindow_bounds r (randomSpanDuration r st.pos).2
    (st.nodes.getD parentIdx default).startTime (st.nodes.getD parentIdx default).endTime
    (ecsDuration r st parentIdx) hd.1 (by omega)
  unfold ecsWindow
  exact ⟨hw.1, hw.2.1, by have h3 := hw.2.2; omega⟩

/-- `emitChildSpan` preserves the generator invariant when the parent is a
real node with depth field at most `MaxDepth`, and the extra attributes do
not carry the HTTP status key; the new child sits at the parent's depth
plus one. -/
theorem emitChildSpan_genInv (g : GenCfg) (svcName spanNm : String)
    (serviceNames : List String) (r : Nat → Nat) (st : GenState) (parentIdx : Nat)
    (kind : SpanKind) (extra : List (String × AttrValue))
    (hp : parentIdx < st.nodes.length)
    (hd : (st.nodes.getD parentIdx default).depthField ≤ g.maxDepth)
    (hextra : mapLookup extra "http.response.status_code" = none)
    (hinv : GenInv g st) :
    GenInv g (emitChildSpan g svcName spanNm serviceNames r st parentIdx kind extra).1 ∧
    (emitChildSpan g svcName spanNm serviceNames r st parentIdx kind
      extra).1.nodes.length = st.nodes.length + 1 ∧
    (emitChildSpan g svcName spanNm serviceNames r st parentIdx kind extra).2 =
      st.nodes.length ∧
    (emitChildSpan g svcName spanNm serviceNames r st parentIdx kind extra).1.fanins =
      st.fanins ∧
    ((emitChildSpan g svcName spanNm serviceNames r st parentIdx kind
        extra).1.nodes.getD st.nodes.length default).depthField =
      (st.nodes.getD parentIdx default).depthField + 1 := by
  obtain ⟨hne, hdep, heq, htime, hstat⟩ := hinv
  have hpt := (htime parentIdx hp).1
  have hwb := ecsWindow_bounds r st parentIdx hpt
  have hbase : mapLookup
      (serviceAttributes (ecsService svcName serviceNames r st parentIdx).1 ++ extra)
      "http.response.status_code" = none := by
    rw [mapLookup_append, mapLookup_serviceAttributes_http]
    exact hextra
  have hstP : ({ st with
      pos := (ecsName g svcName spanNm serviceNames r st parentIdx).2 } : GenState).nodes =
      st.nodes := rfl
  have hlen : (emitChildSpan g svcName spanNm serviceNames r st parentIdx kind
      extra).1.nodes.length = st.nodes.length + 1 := by
    show (newSpanNode _ (some parentIdx) _ _ _ _ _ _ _).nodes.length = st.nodes.length + 1
    rw [newSpanNode_some_len]
  have hgetold : ∀ q, q < st.nodes.length → q ≠ parentIdx →
      (emitChildSpan g svcName spanNm serviceNames r st parentIdx kind
        extra).1.nodes.getD q default = st.nodes.getD q default := by
    intro q hq hqp
    unfold emitChildSpan
    rw [newSpanNode_getD_old
      { st with pos := (ecsName g svcName spanNm serviceNames r st parentIdx).2 }
      parentIdx _ _ _ _ _ _ _ q hq hqp]
  have hgetpar : (emitChildSpan g svcName spanNm serviceNames r st parentIdx kind
      extra).1.nodes.getD parentIdx default =
      withChildAdded (st.nodes.getD parentIdx default) st.nodes.length := by
    unfold emitChildSpan
    rw [newSpanNode_getD_parent
      { st with pos := (ecsName g svcName spanNm serviceNames r st parentIdx).2 }
      parentIdx _ _ _ _ _ _ _ hp]
  have hgetnew : (emitChildSpan g svcName spanNm serviceNames r st parentIdx kind
      extra).1.nodes.getD st.nodes.length default =
      childNode parentIdx (st.nodes.getD parentIdx default)
        (ecsName g svcName spanNm serviceNames r st parentIdx).1 kind
        (ecsWindow r st parentIdx).1 (ecsWindow r st parentIdx).2.1
        (ecsAttrs g svcName serviceNames r st parentIdx kind extra)
        (ecsStatus g svcName serviceNames r st parentIdx).1
        (ecsStatus g svcName serviceNames r st parentIdx).2.1 := by
    unfold emitChildSpan
    rw [newSpanNode_getD_new
      { st with pos := (ecsName g svcName spanNm serviceNames r st parentIdx).2 } parentIdx]
  have hcore : ∀ q, q < st.nodes.length →
      ((emitChildSpan g svcName spanNm serviceNames r st parentIdx kind
        extra).1.nodes.getD q default).startTime = (st.nodes.getD q default).startTime ∧
      ((emitChildSpan g svcName spanNm serviceNames r st parentIdx kind
        extra).1.nodes.getD q default).endTime = (st.nodes.getD q default).endTime ∧
      ((emitChildSpan g svcName spanNm serviceNames r st parentIdx kind
        extra).1.nodes.getD q default).parentIdx = (st.nodes.getD q default).parentIdx := by
    intro q hq
    by_cases hqp : q = parentIdx
    · subst hqp
      rw [hgetpar]
      exact ⟨rfl, rfl, rfl⟩
    · rw [hgetold q hq hqp]
      exact ⟨rfl, rfl, rfl⟩
  have hmem : ∀ n, n ∈ (emitChildSpan g svcName spanNm serviceNames r st parentIdx kind
      extra).1.nodes → n ∈ st.nodes ∨
      n = withChildAdded (st.nodes.getD parentIdx default) st.nodes.length ∨
      n = childNode parentIdx (st.nodes.getD parentIdx default)
        (ecsName g svcName spanNm serviceNames r st parentIdx).1 kind
        (ecsWindow r st parentIdx).1 (ecsWindow r st parentIdx).2.1
        (ecsAttrs g svcName serviceNames r st parentIdx kind extra)
        (ecsStatus g svcName serviceNames r st parentIdx).1
        (ecsStatus g svcName serviceNames r st parentIdx).2.1 := by
    intro n hn
    have hn' : n ∈ (st.nodes.set parentIdx
        (withChildAdded (st.nodes.getD parentIdx default) st.nodes.length)) ++
        [childNode parentIdx (st.nodes.getD parentIdx default)
          (ecsName g svcName spanNm serviceNames r st parentIdx).1 kind
          (ecsWindow r st parentIdx).1 (ecsWindow r st parentIdx).2.1
          (ecsAttrs g svcName serviceNames r st parentIdx kind extra)
          (ecsStatus g svcName serviceNames r st parentIdx).1
          (ecsStatus g svcName serviceNames r st parentIdx).2.1] := by
      have hrw : (emitChildSpan g svcName spanNm serviceNames r st parentIdx kind
          extra).1.nodes = _ := newSpanNode_some_nodes
        { st with pos := (ecsName g svcName spanNm serviceNames r st parentIdx).2 }
        parentIdx _ _ _ _ _ _ _
      exact hrw ▸ hn
    rcases List.mem_append.mp hn' with hl | hr
    · rcases List.mem_or_eq_of_mem_set hl with h1 | h2
      · exact Or.inl h1
      · exact Or.inr (Or.inl h2)
    · exact Or.inr (Or.inr (List.mem_singleton.mp hr))
  refine ⟨⟨?_, ?_, ?_, ?_, ?_⟩, hlen, rfl, rfl, ?_⟩
  · intro hnil
    have := hlen
    rw [hnil] at this
    simp at this
  · intro n hn
    rcases hmem n hn with h1 | h2 | h3
    · exact hdep n h1
    · rw [h2]
      show (st.nodes.getD parentIdx default).depthField ≤ g.maxDepth + 1
      have := hdep _ (getD_mem_of_lt st.nodes parentIdx hp)
      omega
    · rw [h3]
      show (st.nodes.getD parentIdx default).depthField + 1 ≤ g.maxDepth + 1
      omega
  · intro hfz n hn
    have hfz' : st.fanins = 0 := hfz
    rcases hmem n hn with h1 | h2 | h3
    · exact heq hfz' n h1
    · rw [h2]
      show (st.nodes.getD parentIdx default).structDepth =
        (st.nodes.getD parentIdx default).depthField
      exact heq hfz' _ (getD_mem_of_lt st.nodes parentIdx hp)
    · rw [h3]
      show (st.nodes.getD parentIdx default).structDepth + 1 =
        (st.nodes.getD parentIdx default).depthField + 1
      have := heq hfz' _ (getD_mem_of_lt st.nodes parentIdx hp)
      omega
  · intro i hi
    rw [hlen] at hi
    by_cases hil : i < st.nodes.length
    · have hc := hcore i hil
      have hold := htime i hil
      constructor
      · rw [hc.1, hc.2.1]
        exact hold.1
      · intro p hpar
        rw [hc.2.2] at hpar
        have hrel := hold.2 p hpar
        have hcp := hcore p (lt_trans hrel.1 hil)
        rw [hc.1, hc.2.1, hcp.1, hcp.2.1]
        exact hrel
    · have hieq : i = st.nodes.length := by omega
      subst hieq
      rw [hgetnew]
      constructor
      · show (ecsWindow r st parentIdx).1 < (ecsWindow r st parentIdx).2.1
        exact hwb.2.2
      · intro p hpar
        have h2 : some parentIdx = some p := hpar
        have hpeq : p = parentIdx := (Option.some_inj.mp h2).symm
        rw [hpeq]
        have hcp := hcore parentIdx hp
        refine ⟨hp, ?_, ?_⟩
        · rw [hcp.1]
          exact hwb.1
        · rw [hcp.2.1]
          exact hwb.2.1
  · intro n hn
    rcases hmem n hn with h1 | h2 | h3
    · exact hstat n h1
    · rw [h2]
      show StatusOk g.errorRate (st.nodes.getD parentIdx default)
      exact hstat _ (getD_mem_of_lt st.nodes parentIdx hp)
    · rw [h3]
      show StatusOkC g.errorRate kind (ecsStatus g svcName serviceNames r st parentIdx).1
        (ecsStatus g svcName serviceNames r st parentIdx).2.1
        (ecsAttrs g svcName serviceNames r st parentIdx kind extra)
      exact statusOkC_draw g.errorRate r
        (ecsService svcName serviceNames r st parentIdx).2 kind _ hbase
  · rw [hgetnew]
    rfl

/-- `emitPairedSpan` preserves the invariant when the picked parent is a
real node strictly below `MaxDepth` (the second child of the pair may
reach depth `MaxDepth + 1`). -/
theorem emitPairedSpan_genInv (g : GenCfg) (svcName spanNm : String)
    (serviceNames : List String) (r : Nat → Nat) (st : GenState) (parentIdx : Nat)
    (pk ck : SpanKind) (hp : parentIdx < st.nodes.length)
    (hd : (st.nodes.getD parentIdx default).depthField < g.maxDepth)
    (hinv : GenInv g st) :
    GenInv g (emitPairedSpan g svcName spanNm serviceNames r st parentIdx pk ck) ∧
    (emitPairedSpan g svcName spanNm serviceNames r st parentIdx pk ck).nodes.length =
      st.nodes.length + 2 ∧
    (emitPairedSpan g svcName spanNm serviceNames r st parentIdx pk ck).fanins =
      st.fanins := by
  have h1 := emitChildSpan_genInv g svcName spanNm serviceNames r st parentIdx pk []
    hp (by omega) rfl hinv
  have hidx : (emitChildSpan g svcName spanNm serviceNames r st parentIdx pk []).2 =
      st.nodes.length := h1.2.2.1
  have hp2 : (emitChildSpan g svcName spanNm serviceNames r st parentIdx pk []).2 <
      (emitChildSpan g svcName spanNm serviceNames r st parentIdx pk
        []).1.nodes.length := by
    rw [hidx, h1.2.1]
    omega
  have hd2 : ((emitChildSpan g svcName spanNm serviceNames r st parentIdx pk
      []).1.nodes.getD
      (emitChildSpan g svcName spanNm serviceNames r st parentIdx pk []).2
      default).depthField ≤ g.maxDepth := by
    rw [hidx, h1.2.2.2.2]
    omega
  have h2 := emitChildSpan_genInv g svcName spanNm serviceNames r
    (emitChildSpan g svcName spanNm serviceNames r st parentIdx pk []).1
    (emitChildSpan g svcName spanNm serviceNames r st parentIdx pk []).2 ck []
    hp2 hd2 rfl h1.1
  refine ⟨h2.1, ?_, ?_⟩
  · show (emitChildSpan g svcName spanNm serviceNames r
      (emitChildSpan g svcName spanNm serviceNames r st parentIdx pk []).1
      (emitChildSpan g svcName spanNm serviceNames r st parentIdx pk []).2 ck
      []).1.nodes.length = st.nodes.length + 2
    rw [h2.2.1, h1.2.1]
  · show (emitChildSpan g svcName spanNm serviceNames r
      (emitChildSpan g svcName spanNm serviceNames r st parentIdx pk []).1
      (emitChildSpan g svcName spanNm serviceNames r st parentIdx pk []).2 ck
      []).1.fanins = st.fanins
    rw [h2.2.2.2.1, h1.2.2.2.1]

/-! ### Fan-in (`AddChild`) preservation -/

theorem faninNodes_len (nodes : List GNode) (sIdx cIdx : Nat) :
    (faninNodes nodes sIdx cIdx).length = nodes.length := by
  unfold faninNodes
  simp

theorem faninNodes_getD_c (nodes : List GNode) (sIdx cIdx : Nat) (hc : cIdx < nodes.length) :
    (faninNodes nodes sIdx cIdx).getD cIdx default =
      faninChild (nodes.getD cIdx default) sIdx
        ((nodes.getD sIdx default).depthField + 1) := by
  unfold faninNodes
  exact getD_set_self _ _ _ _ (by simpa using hc)

theorem faninNodes_getD_s (nodes : List GNode) (sIdx cIdx : Nat) (hs : sIdx < nodes.length)
    (hsc : sIdx ≠ cIdx) :
    (faninNodes nodes sIdx cIdx).getD sIdx default =
      faninParent (nodes.getD sIdx default) cIdx := by
  unfold faninNodes
  rw [getD_set_ne _ _ _ _ _ (fun he => hsc he.symm), getD_set_self _ _ _ _ hs]

theorem faninNodes_getD_other (nodes : List GNode) (sIdx cIdx : Nat) (q : Nat)
    (hqs : q ≠ sIdx) (hqc : q ≠ cIdx) :
    (faninNodes nodes sIdx cIdx).getD q default = nodes.getD q default := by
  unfold faninNodes
  rw [getD_set_ne _ _ _ _ _ (fun he => hqc he.symm),
    getD_set_ne _ _ _ _ _ (fun he => hqs he.symm)]

theorem faninBumped_eq (nodes : List GNode) (sIdx cIdx : Nat) (hc : cIdx < nodes.length) :
    faninBumped nodes sIdx cIdx = faninNodes nodes sIdx cIdx := by
  unfold faninBumped
  rw [faninNodes_getD_c nodes sIdx cIdx hc]
  rw [if_neg]
  show ¬ (faninChild (nodes.getD cIdx default) sIdx
      ((nodes.getD sIdx default).depthField + 1)).depthField <
    (nodes.getD sIdx default).depthField + 1
  show ¬ (nodes.getD sIdx default).depthField + 1 < (nodes.getD sIdx default).depthField + 1
  omega

theorem addChildFanin_genInv (g : GenCfg) (st : GenState) (sIdx cIdx : Nat)
    (hs : sIdx < st.nodes.length) (hc : cIdx < st.nodes.length)
    (hsd : (st.nodes.getD sIdx default).depthField < g.maxDepth)
    (hinv : GenInv g st) :
    GenInv g (addChildFanin st sIdx cIdx) ∧
    (addChildFanin st sIdx cIdx).nodes.length = st.nodes.length ∧
    st.fanins ≤ (addChildFanin st sIdx cIdx).fanins := by
  obtain ⟨hne, hdep, heq, htime, hstat⟩ := hinv
  unfold addChildFanin
  by_cases hg : (cIdx = sIdx || hasAncestor st.nodes sIdx cIdx ||
      hasChildIdx st.nodes sIdx cIdx) = true
  · rw [if_pos hg]
    exact ⟨⟨hne, hdep, heq, htime, hstat⟩, rfl, le_refl _⟩
  · rw [if_neg hg]
    have hcs : cIdx ≠ sIdx := by
      intro he
      exact hg (by simp [he])
    have hsc : sIdx ≠ cIdx := fun he => hcs he.symm
    have hbe := faninBumped_eq st.nodes sIdx cIdx hc
    have hlen : (faninBumped st.nodes sIdx cIdx).length = st.nodes.length := by
      rw [hbe, faninNodes_len]
    have hcore : ∀ q, q < st.nodes.length →
        ((faninBumped st.nodes sIdx cIdx).getD q default).startTime =
          (st.nodes.getD q default).startTime ∧
        ((faninBumped st.nodes sIdx cIdx).getD q default).endTime =
          (st.nodes.getD q default).endTime ∧
        ((faninBumped st.nodes sIdx cIdx).getD q default).parentIdx =
          (st.nodes.getD q default).parentIdx := by
      intro q hq
      rw [hbe]
      by_cases hqc : q = cIdx
      · subst hqc
        rw [faninNodes_getD_c _ _ _ hc]
        exact ⟨rfl, rfl, rfl⟩
      · by_cases hqs : q = sIdx
        · subst hqs
          rw [faninNodes_getD_s _ _ _ hs hsc]
          exact ⟨rfl, rfl, rfl⟩
        · rw [faninNodes_getD_other _ _ _ _ hqs hqc]
          exact ⟨rfl, rfl, rfl⟩
    have hmem : ∀ n, n ∈ faninBumped st.nodes sIdx cIdx → n ∈ st.nodes ∨
        n = faninParent (st.nodes.getD sIdx default) cIdx ∨
        n = faninChild (st.nodes.getD cIdx default) sIdx
          ((st.nodes.getD sIdx default).depthField + 1) := by
      intro n hn
      rw [hbe] at hn
      unfold faninNodes at hn
      rcases List.mem_or_eq_of_mem_set hn with h1 | h2
      · rcases List.mem_or_eq_of_mem_set h1 with h3 | h4
        · exact Or.inl h3
        · exact Or.inr (Or.inl h4)
      · exact Or.inr (Or.inr h2)
    refine ⟨⟨?_, ?_, ?_, ?_, ?_⟩, hlen, ?_⟩
    · show faninBumped st.nodes sIdx cIdx ≠ []
      intro hnil
      rw [hnil] at hlen
      have := List.length_pos.mpr hne
      simp at hlen
      omega
    · show DepthInv g.maxDepth (faninBumped st.nodes sIdx cIdx)
      intro n hn
      rcases hmem n hn with h1 | h2 | h3
      · exact hdep n h1
      · rw [h2]
        show (st.nodes.getD sIdx default).depthField ≤ g.maxDepth + 1
        exact hdep _ (getD_mem_of_lt st.nodes sIdx hs)
      · rw [h3]
        show (st.nodes.getD sIdx default).depthField + 1 ≤ g.maxDepth + 1
        omega
    · intro hfz
      have hfz' : st.fanins + 1 = 0 := hfz
      omega
    · show TimeInv (faninBumped st.nodes sIdx cIdx)
      intro i hi
      rw [hlen] at hi
      have hcr := hcore i hi
      have hold := htime i hi
      constructor
      · rw [hcr.1, hcr.2.1]
        exact hold.1
      · intro p hpar
        rw [hcr.2.2] at hpar
        have hrel := hold.2 p hpar
        have hcp := hcore p (lt_trans hrel.1 hi)
        rw [hcr.1, hcr.2.1, hcp.1, hcp.2.1]
        exact hrel
    · show StatusInv g.errorRate (faninBumped st.nodes sIdx cIdx)
      intro n hn
      rcases hmem n hn with h1 | h2 | h3
      · exact hstat n h1
      · rw [h2]
        show StatusOk g.errorRate (st.nodes.getD sIdx default)
        exact hstat _ (getD_mem_of_lt st.nodes sIdx hs)
      · rw [h3]
        show StatusOk g.errorRate (st.nodes.getD cIdx default)
        exact hstat _ (getD_mem_of_lt st.nodes cIdx hc)
    · show st.fanins ≤ st.fanins + 1
      omega

/-! ### Validity of parent/link picks -/

theorem scanParentIndex_lt (nodes : List GNode) (maxDepth : Nat) (h : nodes ≠ []) :
    scanParentIndex nodes maxDepth < nodes.length := by
  unfold scanParentIndex
  split
  · next i hf => exact (List.findIdx?_eq_some_iff_findIdx_eq.mp hf).1
  · next => exact List.length_pos.mpr h

theorem pickParentTries_lt (nodes : List GNode) (maxDepth : Nat) (r : Nat → Nat)
    (h : nodes ≠ []) : ∀ (t pos : Nat),
    (pickParentTries nodes maxDepth r t pos).1 < nodes.length := by
  intro t
  induction t with
  | zero => intro pos; exact scanParentIndex_lt nodes maxDepth h
  | succ t ih =>
    intro pos
    unfold pickParentTries
    split
    · exact randomIndex_lt r pos nodes.length (List.length_pos.mpr h)
    · exact ih _

theorem pickParentIndex_lt (nodes : List GNode) (maxDepth : Nat) (r : Nat → Nat)
    (pos : Nat) (h : nodes ≠ []) :
    (pickParentIndex nodes maxDepth r pos).1 < nodes.length := by
  unfold pickParentIndex
  split
  · exact List.length_pos.mpr h
  · exact pickParentTries_lt nodes maxDepth r h 10 pos

theorem pickLinkTries_some_lt (nodes : List GNode) (parentIdx maxDepth : Nat)
    (r : Nat → Nat) (h : nodes ≠ []) : ∀ (t pos idx : Nat),
    (pickLinkTries nodes parentIdx maxDepth r t pos).1 = some idx →
    idx < nodes.length := by
  intro t
  induction t with
  | zero =>
    intro pos idx he
    exact absurd he (by simp [pickLinkTries])
  | succ t ih =>
    intro pos idx he
    unfold pickLinkTries at he
    split at he
    · exact ih _ _ he
    · split at he
      · exact ih _ _ he
      · have h2 : (randomIndex r pos nodes.length).1 = idx := by
          simpa using he
        rw [← h2]
        exact randomIndex_lt r pos nodes.length (List.length_pos.mpr h)

theorem pickLinkCandidate_some_lt (nodes : List GNode) (parentIdx maxDepth : Nat)
    (r : Nat → Nat) (pos : Nat) (idx : Nat) (h : nodes ≠ [])
    (he : (pickLinkCandidate nodes parentIdx maxDepth r pos).1 = some idx) :
    idx < nodes.length := by
  unfold pickLinkCandidate at he
  split at he
  · exact absurd he (by simp)
  · exact pickLinkTries_some_lt nodes parentIdx maxDepth r h 12 pos idx he

/-! ### The emission loop preserves the invariant and the span budget -/

theorem elSt2_nodes (g : GenCfg) (r : Nat → Nat) (st : GenState) :
    (elSt2 g r st).nodes = st.nodes := rfl

theorem emitLoop_inv (g : GenCfg) (svcName spanNm : String) (serviceNames : List String)
    (r clock : Nat → Nat) : ∀ (fuel remaining : Nat) (st : GenState), GenInv g st →
    GenInv g (emitLoop g svcName spanNm serviceNames r clock fuel remaining st) ∧
    st.fanins ≤ (emitLoop g svcName spanNm serviceNames r clock fuel remaining st).fanins ∧
    (emitLoop g svcName spanNm serviceNames r clock fuel remaining st).nodes.length ≤
      st.nodes.length + remaining := by
  intro fuel
  induction fuel with
  | zero =>
    intro remaining st hinv
    exact ⟨hinv, le_refl _, by show st.nodes.length ≤ st.nodes.length + remaining; omega⟩
  | succ fuel ih =>
    intro remaining st hinv
    unfold emitLoop
    have hne : st.nodes ≠ [] := hinv.1
    have hplt : (elParent g r st).1 < st.nodes.length :=
      pickParentIndex_lt st.nodes g.maxDepth r st.pos hne
    have hinv1 : GenInv g (elSt1 g r st) := hinv
    have hinv2 : GenInv g (elSt2 g r st) := hinv
    by_cases hr0 : remaining = 0
    · rw [if_pos hr0]
      exact ⟨hinv, le_refl _,
        by show st.nodes.length ≤ st.nodes.length + remaining; omega⟩
    · rw [if_neg hr0]
      by_cases hbrk : g.maxDepth ≤
          ((elSt1 g r st).nodes.getD (elParent g r st).1 default).depthField
      · rw [if_pos hbrk]
        exact ⟨hinv1, le_refl _,
          by show st.nodes.length ≤ st.nodes.length + remaining; omega⟩
      · rw [if_neg hbrk]
        have hb1 : (elSt1 g r st).nodes = st.nodes := rfl
        rw [hb1] at hbrk
        have hdeep : (st.nodes.getD (elParent g r st).1 default).depthField <
            g.maxDepth := by omega
        by_cases hch : ((elChoice g r st).1 = 0 ∨ (elChoice g r st).1 = 1)
        · rw [if_pos hch]
          by_cases hr2 : remaining < 2
          · rw [if_pos hr2]
            have hrec := ih remaining (elSt2 g r st) hinv2
            exact ⟨hrec.1, hrec.2.1, by have := hrec.2.2; rw [elSt2_nodes] at this; omega⟩
          · rw [if_neg hr2]
            have hpair := emitPairedSpan_genInv g svcName spanNm serviceNames r
              (elSt2 g r st) (elParent g r st).1 (elPairKinds (elChoice g r st).1).1
              (elPairKinds (elChoice g r st).1).2
              (by rw [elSt2_nodes]; exact hplt)
              (by rw [elSt2_nodes]; exact hdeep) hinv2
            have hrec := ih (remaining - 2) _ hpair.1
            refine ⟨hrec.1, ?_, ?_⟩
            · have hfe : (elSt2 g r st).fanins = st.fanins := rfl
              calc st.fanins = _ := (hfe ▸ hpair.2.2 : _ = st.fanins).symm
                _ ≤ _ := hrec.2.1
            · have h1 := hrec.2.2
              have h2 := hpair.2.1
              rw [elSt2_nodes] at h2
              rw [h2] at h1
              omega
        · rw [if_neg hch]
          by_cases hch2 : (elChoice g r st).1 = 2
          · rw [if_pos hch2]
            have hdb1 : (elDbSt g r clock st).nodes = st.nodes := rfl
            have hinvD : GenInv g (elDbSt g r clock st) := hinv
            have hdb := emitChildSpan_genInv g svcName spanNm serviceNames r
              (elDbSt g r clock st) (elParent g r st).1 .client
              (dbAttributes clock (elSt2 g r st).clockPos).1
              (by rw [hdb1]; exact hplt)
              (by rw [hdb1]; omega)
              (by unfold dbAttributes
                  unfold mapLookup
                  rw [if_neg (by decide)]
                  unfold mapLookup
                  rw [if_neg (by decide)]
                  rfl)
              hinvD
            have hrec := ih (remaining - 1) _ hdb.1
            refine ⟨hrec.1, ?_, ?_⟩
            · have hfe : (elDbSt g r clock st).fanins = st.fanins := rfl
              calc st.fanins = _ := (hfe ▸ hdb.2.2.2.1 : _ = st.fanins).symm
                _ ≤ _ := hrec.2.1
            · have h1 := hrec.2.2
              have h2 := hdb.2.1
              rw [hdb1] at h2
              rw [h2] at h1
              omega
          · rw [if_neg hch2]
            have hinv3 : GenInv g (elSt3 g r st) := hinv
            have h3n : (elSt3 g r st).nodes = st.nodes := rfl
            split
            · have hrec := ih remaining (elSt3 g r st) hinv3
              exact ⟨hrec.1, hrec.2.1, by have := hrec.2.2; rw [h3n] at this; omega⟩
            · next cIdx hlc =>
              have hclt : cIdx < st.nodes.length := by
                have := pickLinkCandidate_some_lt (elSt2 g r st).nodes
                  (elParent g r st).1 g.maxDepth r (elSt2 g r st).pos cIdx
                  (by rw [elSt2_nodes]; exact hne) hlc
                rw [elSt2_nodes] at this
                exact this
              have hfan := addChildFanin_genInv g (elSt3 g r st) (elParent g r st).1 cIdx
                (by rw [h3n]; exact hplt) (by rw [h3n]; exact hclt)
                (by rw [h3n]; exact hdeep) hinv3
              have hrec := ih remaining _ hfan.1
              refine ⟨hrec.1, ?_, ?_⟩
              · have hfe : (elSt3 g r st).fanins = st.fanins := rfl
                calc st.fanins = (elSt3 g r st).fanins := hfe.symm
                  _ ≤ _ := hfan.2.2
                  _ ≤ _ := hrec.2.1
              · have h1 := hrec.2.2
                have h2 := hfan.2.1
                rw [h3n] at h2
                rw [h2] at h1
                omega

/-! ### The root state satisfies the invariant -/

/-- The root node created by `AddSpan`. -/
def rootNode (name : String) (kind : SpanKind) (startT endT : Int)
    (attrs : List (String × AttrValue)) (sc : StatusCode) (sd : String) : GNode :=
  { name := name, kind := kind, startTime := startT, endTime := endT, attrs := attrs,
    statusCode := sc, statusDescription := sd, depthField := 1, structDepth := 1,
    parentIdx := none, parents := [], children := [], links := [] }

theorem etRoot_nodes (g : GenCfg) (svcName spanNm : String) (serviceNames : List String)
    (r : Nat → Nat) (now : Int) (pos0 : Nat) :
    (etRoot g svcName spanNm serviceNames r now pos0).nodes =
      [rootNode (etName g svcName spanNm serviceNames r pos0).1
        (etKind g svcName serviceNames r pos0).1 (now - (etDur g r pos0).1) now
        (etAttrs g svcName serviceNames r pos0) (etStatus g svcName serviceNames r pos0).1
        (etStatus g svcName serviceNames r pos0).2.1] := rfl

theorem etRoot_inv (g : GenCfg) (svcName spanNm : String) (serviceNames : List String)
    (r : Nat → Nat) (now : Int) (pos0 : Nat) :
    GenInv g (etRoot g svcName spanNm serviceNames r now pos0) ∧
    (etRoot g svcName spanNm serviceNames r now pos0).nodes.length = 1 ∧
    (etRoot g svcName spanNm serviceNames r now pos0).fanins = 0 := by
  have hdur := randomSpanDuration_ge r ((randomSpanCount r pos0 g.maxSpans).2 + 1)
  refine ⟨⟨?_, ?_, ?_, ?_, ?_⟩, rfl, rfl⟩
  · rw [etRoot_nodes]
    simp
  · intro n hn
    rw [etRoot_nodes] at hn
    rw [List.mem_singleton.mp hn]
    show 1 ≤ g.maxDepth + 1
    omega
  · intro _ n hn
    rw [etRoot_nodes] at hn
    rw [List.mem_singleton.mp hn]
    rfl
  · intro i hi
    rw [etRoot_nodes] at hi
    simp only [List.length_singleton] at hi
    have hi0 : i = 0 := by omega
    subst hi0
    rw [etRoot_nodes]
    constructor
    · show now - (etDur g r pos0).1 < now
      have : 1000000 ≤ (etDur g r pos0).1 := hdur
      omega
    · intro p hpar
      exact absurd hpar (by simp [rootNode])
  · intro n hn
    rw [etRoot_nodes] at hn
    rw [List.mem_singleton.mp hn]
    show StatusOkC g.errorRate (etKind g svcName serviceNames r pos0).1
      (etStatus g svcName serviceNames r pos0).1
      (etStatus g svcName serviceNames r pos0).2.1
      (etAttrs g svcName serviceNames r pos0)
    exact statusOkC_draw g.errorRate r (etKind g svcName serviceNames r pos0).2
      (etKind g svcName serviceNames r pos0).1
      (serviceAttributes (etSv g svcName serviceNames r pos0).1)
      (mapLookup_serviceAttributes_http _)

theorem etCount_bounds (g : GenCfg) (r : Nat → Nat) (pos0 : Nat) (hS : 1 ≤ g.maxSpans) :
    1 ≤ etCount g r pos0 ∧ etCount g r pos0 ≤ g.maxSpans := by
  unfold etCount
  have hb := randomSpanCount_bounds r pos0 g.maxSpans hS
  split
  · exact ⟨le_refl 1, hS⟩
  · exact hb

/-- The invariant established for a full `GenerateBatch` run. -/
theorem generateBatch_inv (g : GenCfg) (r clock : Nat → Nat) (now : Int) (fuel : Nat) :
    GenInv g (generateBatch g r clock now fuel) ∧
    (generateBatch g r clock now fuel).nodes.length ≤
      1 + (etCount g r (gbSpan g r).2 - 1) := by
  have hroot := etRoot_inv g (gbSvc g r).1 (gbSpan g r).1 (gbServiceNames g r).1 r now
    (gbSpan g r).2
  have hloop := emitLoop_inv g (gbSvc g r).1 (gbSpan g r).1 (gbServiceNames g r).1 r clock
    fuel (etCount g r (gbSpan g r).2 - 1)
    (etRoot g (gbSvc g r).1 (gbSpan g r).1 (gbServiceNames g r).1 r now (gbSpan g r).2)
    hroot.1
  refine ⟨hloop.1, ?_⟩
  have h1 := hloop.2.2
  rw [hroot.2.1] at h1
  exact h1

/-! ### The generator claims -/

/-- Concrete generator input for the structural-bound claims:
MaxDepth 2, MaxSpans 3, one service, error rate 0. -/
def gW2 : GenCfg :=
  { serviceName := "svc", spanName := "op", services := 1, maxDepth := 2, maxSpans := 3,
    errorRate := 0 }

/-- A reader stream that draws span count 3 and then picks the root parent
and the client→server pair choice. -/
def rW2 : Nat → Nat := fun p => if p = 0 then 2 else 0

def clockW2 : Nat → Nat := fun _ => 0

/-- Claim C2 counterexample: with MaxDepth 2 and MaxSpans 3, a reachable
run (span count 3, edge choice client→server pair under the root) emits a
server span at structural depth 3 > MaxDepth: the paired emission adds two
levels below a parent that is only checked to be strictly under MaxDepth,
so "every span has depth ≤ MaxDepth" fails. -/
theorem C2_counterexample :
    1 ≤ gW2.maxDepth ∧ 1 ≤ gW2.maxSpans ∧
    ((generateBatch gW2 rW2 clockW2 1000000000000 10).nodes.getD 2 default).structDepth
      = 3 ∧
    ¬ (∀ n ∈ (generateBatch gW2 rW2 clockW2 1000000000000 10).nodes,
        n.structDepth ≤ gW2.maxDepth) := by
  decide

/-- Claim C2 (amended): for every invocation with MaxDepth ≥ 1 and
MaxSpans ≥ 1, the batch contains at most MaxSpans spans; in every run,
every span's recorded depth field is at most MaxDepth + 1 (parents are
picked with depth < MaxDepth, so a single child lands at ≤ MaxDepth and
the server half of a paired emission one level lower at ≤ MaxDepth + 1;
fan-in `AddChild` only ever lowers a node's depth field); and in every
run that records no fan-in link the structural depth agrees with the
field, so it too is at most MaxDepth + 1. -/
theorem C2_generator_bounds (g : GenCfg) (r clock : Nat → Nat) (now : Int) (fuel : Nat)
    ( _hD : 1 ≤ g.maxDepth) (hS : 1 ≤ g.maxSpans) :
    (generateBatch g r clock now fuel).nodes.length ≤ g.maxSpans ∧
    (∀ n ∈ (generateBatch g r clock now fuel).nodes,
      n.depthField ≤ g.maxDepth + 1) ∧
    ((generateBatch g r clock now fuel).fanins = 0 →
      ∀ n ∈ (generateBatch g r clock now fuel).nodes,
        n.structDepth ≤ g.maxDepth + 1) := by
  have hb := generateBatch_inv g r clock now fuel
  have hc := etCount_bounds g r (gbSpan g r).2 hS
  refine ⟨?_, ?_, ?_⟩
  · have h2 := hb.2
    omega
  · exact hb.1.2.1
  · intro hfz n hn
    have heqd := hb.1.2.2.1 hfz n hn
    have hdepth := hb.1.2.1 n hn
    omega

theorem C2_generator_bounds_witness :
    (generateBatch gW2 rW2 clockW2 1000000000000 10).nodes.length ≤ gW2.maxSpans :=
  (C2_generator_bounds gW2 rW2 clockW2 1000000000000 10 (by decide) (by decide)).1

/-- Claim C3 (parent-child time containment): every span emitted by the
generator has `EndTime > StartTime`, and a span with a structural parent
in the batch starts no earlier than the parent and ends no later. -/
theorem C3_time_containment (g : GenCfg) (r clock : Nat → Nat) (now : Int) (fuel : Nat) :
    ∀ i, i < (generateBatch g r clock now fuel).nodes.length →
      ((generateBatch g r clock now fuel).nodes.getD i default).startTime <
        ((generateBatch g r clock now fuel).nodes.getD i default).endTime ∧
      ∀ p, ((generateBatch g r clock now fuel).nodes.getD i default).parentIdx = some p →
        p < i ∧
        ((generateBatch g r clock now fuel).nodes.getD p default).startTime ≤
          ((generateBatch g r clock now fuel).nodes.getD i default).startTime ∧
        ((generateBatch g r clock now fuel).nodes.getD i default).endTime ≤
          ((generateBatch g r clock now fuel).nodes.getD p default).endTime :=
  fun i hi => (generateBatch_inv g r clock now fuel).1.2.2.2.1 i hi

theorem C3_time_containment_witness :
    ((generateBatch gW2 rW2 clockW2 1000000000000 10).nodes.getD 2 default).startTime <
      ((generateBatch gW2 rW2 clockW2 1000000000000 10).nodes.getD 2 default).endTime :=
  (C3_time_containment gW2 rW2 clockW2 1000000000000 10 2 (by decide)).1

/-- Claim C7 (error-rate extremes): with ErrorRate 0 every span has status
Ok and Server/Client spans carry `http.response.status_code = 200`; with
ErrorRate 1 every span has status Error with message "simulated failure"
and Server/Client spans carry code 500; the HTTP attribute is never
attached to other kinds. -/
theorem C7_error_rate_extremes (g : GenCfg) (r clock : Nat → Nat) (now : Int) (fuel : Nat) :
    (g.errorRate = 0 →
      ∀ n ∈ (generateBatch g r clock now fuel).nodes,
        n.statusCode = .ok ∧
        ((n.kind = .server ∨ n.kind = .client) →
          mapLookup n.attrs "http.response.status_code" = some (.int 200))) ∧
    (g.errorRate = 1 →
      ∀ n ∈ (generateBatch g r clock now fuel).nodes,
        n.statusCode = .error ∧ n.statusDescription = "simulated failure" ∧
        ((n.kind = .server ∨ n.kind = .client) →
          mapLookup n.attrs "http.response.status_code" = some (.int 500))) ∧
    (∀ n ∈ (generateBatch g r clock now fuel).nodes,
      ¬(n.kind = .server ∨ n.kind = .client) →
      mapLookup n.attrs "http.response.status_code" = none) := by
  have hs := (generateBatch_inv g r clock now fuel).1.2.2.2.2
  refine ⟨fun h0 n hn => ?_, fun h1 n hn => ?_, fun n hn => (hs n hn).2.2⟩
  · have hz := (hs n hn).1 (le_of_eq h0)
    exact ⟨hz.1, hz.2.2⟩
  · exact (hs n hn).2.1 h1.ge

theorem C7_error_rate_extremes_witness :
    ((generateBatch gW2 rW2 clockW2 1000000000000 10).nodes.getD 2 default).statusCode =
      StatusCode.ok :=
  (((C7_error_rate_extremes gW2 rW2 clockW2 1000000000000 10).1 (by decide))
    ((generateBatch gW2 rW2 clockW2 1000000000000 10).nodes.getD 2 default)
    (getD_mem_of_lt _ 2 (by decide))).1

/-! ## Metrics (`internal/metrics`) and the pipeline runner
(`internal/pipeline`)

Exporter-call durations are nanosecond integers.  `Stats.Record` appends
the duration and bumps exactly one of the two outcome counters. -/

structure Stats where
  durations : List Int
  successes : Nat
  failures : Nat
  deriving DecidableEq, Repr

def Stats.record (s : Stats) (d : Int) (isErr : Bool) : Stats :=
  { durations := s.durations ++ [d],
    successes := if isErr then s.successes else s.successes + 1,
    failures := if isErr then s.failures + 1 else s.failures }

structure Summary where
  total : Nat
  successes : Nat
  failures : Nat
  avgLatency : Int
  p95Latency : Int
  deriving DecidableEq, Repr

/-- The P95 index.  The source computes `int(float64(total-1) * 0.95)` in
IEEE-754 float64; floating point is outside this embedding, so the index
is modelled as the exact `⌊(total−1) × 95/100⌋` (see the discussion of
claim C9, which hinges on this very equivalence and is left unsettled). -/
def p95Index (total : Nat) : Nat :=
  (total - 1) * 19 / 20

/-- Ascending insertion of one duration (the model of `sort.Slice` with
`Less = <` is: sort ascending). -/
def insertSorted (x : Int) : List Int → List Int
  | [] => [x]
  | y :: ys => if x ≤ y then x :: y :: ys else y :: insertSorted x ys

/-- Sort durations ascending, as `sort.Slice(durations, ... < ...)`. -/
def sortAsc (l : List Int) : List Int :=
  l.foldr insertSorted []

/-- `metrics.Summarize`: concatenate all workers' durations, sort
ascending, and sum the counters (`avg` uses Go's truncating int64
division). -/
def summarize (stats : List Stats) : Summary :=
  if (stats.map (fun s => s.durations.length)).sum = 0 then
    { total := 0, successes := (stats.map (fun s => s.successes)).sum,
      failures := (stats.map (fun s => s.failures)).sum, avgLatency := 0, p95Latency := 0 }
  else
    { total := (stats.map (fun s => s.durations.length)).sum,
      successes := (stats.map (fun s => s.successes)).sum,
      failures := (stats.map (fun s => s.failures)).sum,
      avgLatency := (sortAsc (stats.map (fun s => s.durations)).flatten).sum /
        ((stats.map (fun s => s.durations.length)).sum : Int),
      p95Latency := (sortAsc (stats.map (fun s => s.durations)).flatten).getD
        (p95Index (stats.map (fun s => s.durations.length)).sum) 0 }

/-- The per-iteration observations a worker makes: context cancellation,
elapsed wall clock, the batch produced by `Process` (`none` is a stage
error), and the exporter outcome; `sleepCancelled` is cancellation during
the pacing sleep. -/
structure WorkerEnv where
  ctxDone : Nat → Bool
  elapsed : Nat → Int
  processBatchLen : Nat → Option Nat
  exportErr : Nat → Bool
  exportDuration : Nat → Int
  sleepCancelled : Nat → Bool

/-- A finished worker: its collector, whether it ended with an error, and
(ghost) the number of exporter calls it attempted. -/
structure WorkerResult where
  stats : Stats
  erred : Bool
  attempts : Nat
  deriving Repr

/-- The per-worker loop of `Pipeline.Run`, on fuel (the loop is unbounded
when `requests ≤ 0`): stop on request count, cancellation, wall-clock
duration; export non-empty batches through the instrumented exporter
(record, then propagate the error); pace between iterations. -/
def workerLoop (requests requestInterval requestDuration : Int) (env : WorkerEnv) :
    Nat → Nat → Stats → Nat → WorkerResult
  | 0, _, st, att => ⟨st, false, att⟩
  | fuel + 1, i, st, att =>
    if 0 < requests ∧ requests ≤ (i : Int) then ⟨st, false, att⟩
    else if env.ctxDone i then ⟨st, true, att⟩
    else if 0 < requestDuration ∧ requestDuration ≤ env.elapsed i then ⟨st, false, att⟩
    else
      match env.processBatchLen i with
      | none => ⟨st, true, att⟩
      | some blen =>
        if 0 < blen then
          if env.exportErr i then
            ⟨st.record (env.exportDuration i) (env.exportErr i), true, att + 1⟩
          else if 0 < requestInterval ∧ (requests ≤ 0 ∨ (i : Int) < requests - 1) ∧
              env.sleepCancelled i then
            ⟨st.record (env.exportDuration i) (env.exportErr i), true, att + 1⟩
          else
            workerLoop requests requestInterval requestDuration env fuel (i + 1)
              (st.record (env.exportDuration i) (env.exportErr i)) (att + 1)
        else
          if 0 < requestInterval ∧ (requests ≤ 0 ∨ (i : Int) < requests - 1) ∧
              env.sleepCancelled i then ⟨st, true, att⟩
          else workerLoop requests requestInterval requestDuration env fuel (i + 1) st att

/-- `Pipeline.Run`: one fresh collector and one loop per worker. -/
def runWorkers (workers : Nat) (requests requestInterval requestDuration : Int)
    (envs : Nat → WorkerEnv) (fuel : Nat) : List WorkerResult :=
  (List.range workers).map
    (fun w => workerLoop requests requestInterval requestDuration (envs w) fuel 0
      ⟨[], 0, 0⟩ 0)

/-- The merged summary of a run. -/
def pipelineRunSummary (workers : Nat) (requests requestInterval requestDuration : Int)
    (envs : Nat → WorkerEnv) (fuel : Nat) : Summary :=
  summarize ((runWorkers workers requests requestInterval requestDuration envs fuel).map
    (fun res => res.stats))

theorem record_counts (s : Stats) (d : Int) (e : Bool) :
    (s.record d e).successes + (s.record d e).failures = s.successes + s.failures + 1 ∧
    (s.record d e).durations.length = s.durations.length + 1 := by
  unfold Stats.record
  cases e <;> simp <;> omega

theorem workerLoop_balance (requests requestInterval requestDuration : Int)
    (env : WorkerEnv) : ∀ (fuel i : Nat) (st : Stats) (att : Nat),
    st.successes + st.failures = st.durations.length →
    ((workerLoop requests requestInterval requestDuration env fuel i st att).stats.successes
      + (workerLoop requests requestInterval requestDuration env fuel i st
          att).stats.failures =
      (workerLoop requests requestInterval requestDuration env fuel i st
        att).stats.durations.length) ∧
    ((workerLoop requests requestInterval requestDuration env fuel i st
        att).stats.durations.length + att =
      (workerLoop requests requestInterval requestDuration env fuel i st att).attempts +
        st.durations.length) := by
  intro fuel
  induction fuel with
  | zero =>
    intro i st att hst
    exact ⟨hst, by show st.durations.length + att = att + st.durations.length; omega⟩
  | succ fuel ih =>
    intro i st att hst
    unfold workerLoop
    have hrec := record_counts st (env.exportDuration i) (env.exportErr i)
    split
    · exact ⟨hst, by show st.durations.length + att = att + st.durations.length; omega⟩
    · split
      · exact ⟨hst, by show st.durations.length + att = att + st.durations.length; omega⟩
      · split
        · exact ⟨hst, by show st.durations.length + att = att + st.durations.length; omega⟩
        · split
          · exact ⟨hst, by show st.durations.length + att = att + st.durations.length; omega⟩
          · split
            · split
              · exact ⟨by simp only []; omega, by simp only []; omega⟩
              · split
                · exact ⟨by simp only []; omega, by simp only []; omega⟩
                · have := ih (i + 1) (st.record (env.exportDuration i) (env.exportErr i))
                    (att + 1) (by omega)
                  exact ⟨this.1, by omega⟩
            · split
              · exact ⟨hst, by show st.durations.length + att = att + st.durations.length; omega⟩
              · exact ih (i + 1) st att hst

theorem summarize_total (stats : List Stats) :
    (summarize stats).total = (stats.map (fun s => s.durations.length)).sum := by
  unfold summarize
  split
  · next hz => exact hz.symm
  · rfl

theorem summarize_successes (stats : List Stats) :
    (summarize stats).successes = (stats.map (fun s => s.successes)).sum := by
  unfold summarize
  split <;> rfl

theorem summarize_failures (stats : List Stats) :
    (summarize stats).failures = (stats.map (fun s => s.failures)).sum := by
  unfold summarize
  split <;> rfl

theorem sum_counts (stats : List Stats)
    (h : ∀ s ∈ stats, s.successes + s.failures = s.durations.length) :
    (stats.map (fun s => s.successes)).sum + (stats.map (fun s => s.failures)).sum =
      (stats.map (fun s => s.durations.length)).sum := by
  induction stats with
  | nil => rfl
  | cons s rest ih =>
    have hs := h s (List.mem_cons_self s rest)
    have hr := ih (fun x hx => h x (List.mem_cons_of_mem s hx))
    simp only [List.map_cons, List.sum_cons]
    omega

/-- The environment of the claim's concrete scenario: non-empty batches,
an always-succeeding exporter, no cancellation, no pacing. -/
def envW4 : WorkerEnv :=
  { ctxDone := fun _ => false, elapsed := fun _ => 0,
    processBatchLen := fun _ => some 1, exportErr := fun _ => false,
    exportDuration := fun _ => 0, sleepCancelled := fun _ => false }

/-- Claim C4 (run accounting): for every run, Successes + Failures = Total
and Total equals the sum over workers of exporter calls attempted; with 3
workers, 5 requests per worker, non-empty batches and an always-succeeding
exporter, the merged summary is Total 15, Successes 15, Failures 0. -/
theorem C4_run_accounting (workers : Nat) (requests requestInterval requestDuration : Int)
    (envs : Nat → WorkerEnv) (fuel : Nat) :
    ((pipelineRunSummary workers requests requestInterval requestDuration envs
        fuel).successes +
      (pipelineRunSummary workers requests requestInterval requestDuration envs
        fuel).failures =
      (pipelineRunSummary workers requests requestInterval requestDuration envs
        fuel).total) ∧
    ((pipelineRunSummary workers requests requestInterval requestDuration envs fuel).total =
      ((runWorkers workers requests requestInterval requestDuration envs fuel).map
        (fun res => res.attempts)).sum) ∧
    (pipelineRunSummary 3 5 0 0 (fun _ => envW4) 20 =
      { total := 15, successes := 15, failures := 0, avgLatency := 0, p95Latency := 0 }) := by
  have hworker : ∀ res ∈ runWorkers workers requests requestInterval requestDuration envs
      fuel, res.stats.successes + res.stats.failures = res.stats.durations.length ∧
      res.stats.durations.length = res.attempts := by
    intro res hres
    obtain ⟨w, hw, hres'⟩ := List.mem_map.mp hres
    subst hres'
    have hb := workerLoop_balance requests requestInterval requestDuration (envs w)
      fuel 0 ⟨[], 0, 0⟩ 0 rfl
    have h2 := hb.2
    simp only [List.length_nil, Nat.add_zero] at h2
    exact ⟨hb.1, h2⟩
  refine ⟨?_, ?_, by decide⟩
  · unfold pipelineRunSummary
    rw [summarize_total, summarize_successes, summarize_failures]
    apply sum_counts
    intro s hs
    obtain ⟨res, hres, hseq⟩ := List.mem_map.mp hs
    rw [← hseq]
    exact (hworker res hres).1
  · unfold pipelineRunSummary
    rw [summarize_total]
    rw [List.map_map]
    apply congrArg List.sum
    apply List.map_congr_left
    intro res hres
    exact (hworker res hres).2

/-! ## Configuration validation (`internal/config`) -/

structure AppEndpoint where
  address : String
  protocol : String
  insecure : Bool
  headers : List (String × String)
  deriving DecidableEq, Repr

structure AppConcurrency where
  exporters : Int
  deriving DecidableEq, Repr

structure AppRequests where
  perExporter : Int
  interval : Int
  forDuration : Int
  deriving DecidableEq, Repr

structure AppGenerator where
  services : Int
  maxDepth : Int
  maxSpans : Int
  errorRate : ℚ
  serviceName : String
  spanName : String
  deriving DecidableEq, Repr

structure AppConfig where
  endpoint : AppEndpoint
  concurrency : AppConcurrency
  requests : AppRequests
  generator : AppGenerator
  deriving DecidableEq, Repr

/-- `config.Config.Validate`: the first failing check's error, if any. -/
def configValidate (c : AppConfig) : Option String :=
  if c.endpoint.address = "" then some "endpoint is required"
  else if c.endpoint.protocol ≠ "grpc" ∧ c.endpoint.protocol ≠ "http" then
    some "unsupported protocol"
  else if c.concurrency.exporters ≤ 0 then some "exporters must be > 0"
  else if c.requests.perExporter ≤ 0 then some "max requests must be > 0"
  else if c.requests.interval < 0 then some "request interval must be >= 0"
  else if c.requests.forDuration < 0 then some "request duration must be >= 0"
  else if c.generator.services ≤ 0 then some "services must be > 0"
  else if c.generator.maxDepth ≤ 0 then some "max depth must be > 0"
  else if c.generator.maxSpans ≤ 0 then some "max spans must be > 0"
  else if c.generator.errorRate < 0 ∨ 1 < c.generator.errorRate then
    some "error rate must be between 0 and 1"
  else none

/-- `config.DefaultConfig`. -/
def defaultConfig : AppConfig :=
  { endpoint := { address := "localhost:4317", protocol := "grpc", insecure := true,
                  headers := [] },
    concurrency := { exporters := 1 },
    requests := { perExporter := 1, interval := 0, forDuration := 0 },
    generator := { services := 3, maxDepth := 3, maxSpans := 10, errorRate := 1 / 5,
                   serviceName := "", spanName := "" } }

/-- The default configuration with `max-requests` (requests per exporter)
set to 0 — per the CLI help ("0 for no request limit") and the test
`TestValidateAllowsZeroMaxRequests`, a valid configuration. -/
def cfgW8 : AppConfig :=
  { defaultConfig with
    requests := { perExporter := 0, interval := 0, forDuration := 0 } }

/-- Claim C8 evidence of the code bug: `Config.Validate` rejects
`PerExporter = 0` ("max requests must be > 0"), although the repository's
own test `TestValidateAllowsZeroMaxRequests` requires it to be accepted,
the CLI documents the flag as "0 for no request limit", and the runner
loop does treat `requests ≤ 0` as unbounded — here a worker given
`requests = 0` keeps exporting (7 calls in 7 loop iterations) instead of
stopping on a request count. -/
theorem C8_zero_max_requests :
    configValidate cfgW8 = some "max requests must be > 0" ∧
    (workerLoop 0 0 0 envW4 7 0 ⟨[], 0, 0⟩ 0).stats.durations.length = 7 := by
  decide

end Tercios
